import Mathlib

/-!
Verification development for the balanced corpus selector of the
va-decision-test repository (src/src/fetcher/balanced_selector.py).

The selector is embedded shallowly: the external collaborators
(search_bva, fetch_decision_text, parse_decision, has_private_nexus,
has_exam_inadequacy) are parameters collected in an `Env` record, and the
selection loop of `BalancedSelector.select_100_decisions` is translated
into structurally recursive Lean functions over an explicit state record
mirroring the instance attributes of the Python class.  Every run is
instrumented with a trace of the search and fetch calls it issues (each
paired with the selector state at the moment of the call) and of the
accept/reject decisions it takes (paired with the state after the
decision), so that temporal properties of a run can be stated.
-/

namespace VASel

/-- Model of Python str.lower for a single character, restricted to the
ASCII range that the outcome strings of this repository use: uppercase
ASCII letters are shifted by 32, every other character is unchanged. -/
def pyLowerChar (c : Char) : Char :=
  if 65 ≤ c.toNat ∧ c.toNat ≤ 90 then Char.ofNat (c.toNat + 32) else c

/-- Model of Python str.lower (ASCII): lower every character. -/
def pyLower (s : String) : String :=
  ⟨s.data.map pyLowerChar⟩

/-- One entry of the list returned by search_bva: the selector reads the
url, case_number and year keys of each result dict. -/
structure SearchResult where
  url : String
  case_number : String
  year : Int
deriving DecidableEq

/-- The part of the dict returned by parse_decision that the selector
reads: parsed.get("outcome"), a string or None. -/
structure ParsedDecision where
  outcome : Option String
deriving DecidableEq

/-- The decision dict assembled by select_100_decisions on acceptance.
Phase 1 stores a priority key, Phase 2 does not; this is modelled with an
Option. -/
structure Decision where
  url : String
  case_number : String
  year : Int
  condition : String
  outcome : String
  parsed : ParsedDecision
  text : String
  has_private_nexus : Bool
  has_exam_inadequacy : Bool
  priority : Option Nat
deriving DecidableEq

/-- The external collaborators consumed by the selector.  Fallible calls
(search_bva raises on HTTP errors, fetch_decision_text raises on network
failure, parse_decision can raise inside the same try block) return
Except; the two feature classifiers are pure text predicates. -/
structure Env where
  search_bva : String → Int → Nat → Except Unit (List SearchResult)
  fetch_decision_text : String → Except Unit String
  parse_decision : String → Except Unit ParsedDecision
  has_private_nexus : String → Bool
  has_exam_inadequacy : String → Bool

/-- The instance attributes of BalancedSelector: the fixed configuration
dicts set in __init__ and the mutable tracking state.  Dicts are modelled
as association lists in insertion order, sets as lists with
membership-checked insertion. -/
structure SelState where
  quotas : List (String × Nat)
  conditions : List String
  special_quotas : List (String × Nat)
  selected : List Decision
  seen_urls : List String
  counts : List (String × Nat)
  special_counts : List (String × Nat)
deriving DecidableEq

/-- Dict lookup with default, mirroring dict.get(key, default) and
defaultdict reads. -/
def lookupD (m : List (String × Nat)) (k : String) (d : Nat) : Nat :=
  match m.find? (fun p => p.1 == k) with
  | some p => p.2
  | none => d

/-- Increment of a defaultdict(int) entry: update the entry in place if
the key is present, otherwise append it with value 1. -/
def bump (m : List (String × Nat)) (k : String) : List (String × Nat) :=
  match m.find? (fun p => p.1 == k) with
  | some _ => m.map (fun p => if p.1 == k then (p.1, p.2 + 1) else p)
  | none => m ++ [(k, 1)]

/-- Set insertion for seen_urls: adding an element already present leaves
the set unchanged. -/
def addSeen (l : List String) (u : String) : List String :=
  if l.contains u then l else l ++ [u]

/-- The quotas dict hardcoded in BalancedSelector.__init__. -/
def initQuotas : List (String × Nat) :=
  [("granted", 25), ("denied", 25), ("remanded", 25), ("mixed", 25)]

/-- The conditions list hardcoded in BalancedSelector.__init__. -/
def initConditions : List String :=
  ["tinnitus", "sleep apnea secondary", "PTSD", "radiculopathy", "knee"]

/-- The special_quotas dict hardcoded in BalancedSelector.__init__. -/
def initSpecialQuotas : List (String × Nat) :=
  [("private_nexus", 10), ("exam_inadequacy", 10)]

/-- BalancedSelector.__init__: hardcoded configuration, empty tracking
state.  The constructor takes no arguments and performs no validation. -/
def initState : SelState :=
  { quotas := initQuotas
    conditions := initConditions
    special_quotas := initSpecialQuotas
    selected := []
    seen_urls := []
    counts := []
    special_counts := [] }

/-- BalancedSelector.get_outcome_count: count selected decisions whose
lowered outcome equals the lowered argument. -/
def get_outcome_count (s : SelState) (outcome : String) : Nat :=
  (s.selected.filter (fun d => pyLower d.outcome == pyLower outcome)).length

/-- BalancedSelector.needs_more: the count for this outcome is below
quotas.get(outcome.lower(), 0). -/
def needs_more (s : SelState) (outcome : String) : Bool :=
  get_outcome_count s outcome < lookupD s.quotas (pyLower outcome) 0

/-- BalancedSelector.needs_special: the special count is below the
special quota (both keys are always present when the method is called). -/
def needs_special (s : SelState) (special_type : String) : Bool :=
  lookupD s.special_counts special_type 0 < lookupD s.special_quotas special_type 0

/-- BalancedSelector.add_decision: append the decision, bump the count of
its lowered outcome, bump each special count whose flag the decision
carries. -/
def add_decision (s : SelState) (d : Decision) : SelState :=
  let s1 := { s with
    selected := s.selected ++ [d]
    counts := bump s.counts (pyLower d.outcome) }
  let s2 := if d.has_private_nexus then
    { s1 with special_counts := bump s1.special_counts "private_nexus" } else s1
  if d.has_exam_inadequacy then
    { s2 with special_counts := bump s2.special_counts "exam_inadequacy" } else s2

/-- BalancedSelector.is_complete: every outcome count has reached its
quota and every special count has reached its special quota. -/
def is_complete (s : SelState) : Bool :=
  s.quotas.all (fun p => p.2 ≤ get_outcome_count s p.1) &&
  s.special_quotas.all (fun p => p.2 ≤ lookupD s.special_counts p.1 0)

/-- Events of a run: the two kinds of collaborator call the spec talks
about, and the accept/reject decisions. -/
inductive Ev where
  | searchCall (query : String) (year : Int) (maxResults : Nat)
  | fetchCall (url : String)
  | decided
deriving DecidableEq

/-- A run trace pairs every event with a selector state: for a call, the
state when the call is issued; for a decision, the state right after it. -/
abbrev Trace := List (Ev × SelState)

/-- Phase 1 handling of one search result (the body of the inner results
loop, after the per-candidate is_complete check): skip seen urls, fetch
and parse (log-and-skip on failure), reject if the outcome quota is
already met, otherwise record the url as seen and accept. -/
def phase1Candidate (env : Env) (condition : String) (s : SelState)
    (r : SearchResult) : SelState × Trace :=
  if s.seen_urls.contains r.url then (s, [])
  else
    match env.fetch_decision_text r.url with
    | .error _ => (s, [(.fetchCall r.url, s)])
    | .ok text =>
      match env.parse_decision text with
      | .error _ => (s, [(.fetchCall r.url, s)])
      | .ok parsed =>
        let outcome := pyLower (parsed.outcome.getD "")
        if ¬ needs_more s outcome then
          (s, [(.fetchCall r.url, s), (.decided, s)])
        else
          let has_pn := env.has_private_nexus text
          let has_ei := env.has_exam_inadequacy text
          let priority :=
            (if needs_special s "private_nexus" && has_pn then 2 else 0) +
            (if needs_special s "exam_inadequacy" && has_ei then 2 else 0)
          let sSeen := { s with seen_urls := addSeen s.seen_urls r.url }
          let d : Decision :=
            { url := r.url, case_number := r.case_number, year := r.year
              condition := condition, outcome := outcome, parsed := parsed
              text := text, has_private_nexus := has_pn
              has_exam_inadequacy := has_ei, priority := some priority }
          let sAcc := add_decision sSeen d
          (sAcc, [(.fetchCall r.url, s), (.decided, sAcc)])

/-- Phase 1 results loop: break on is_complete before each candidate. -/
def phase1Results (env : Env) (condition : String) :
    SelState → List SearchResult → SelState × Trace
  | s, [] => (s, [])
  | s, r :: rs =>
    if is_complete s then (s, [])
    else
      let p := phase1Candidate env condition s r
      let q := phase1Results env condition p.1 rs
      (q.1, p.2 ++ q.2)

/-- Phase 1 body for one (condition, year) pair: issue the search (the
query is the bare condition, max_results 30); on search failure log and
move on, otherwise run the results loop. -/
def phase1Year (env : Env) (condition : String) (s : SelState)
    (year : Int) : SelState × Trace :=
  match env.search_bva condition year 30 with
  | .error _ => (s, [(.searchCall condition year 30, s)])
  | .ok results =>
    let p := phase1Results env condition s results
    (p.1, (.searchCall condition year 30, s) :: p.2)

/-- Phase 1 year loop: break on is_complete before each year. -/
def phase1Years (env : Env) (condition : String) :
    SelState → List Int → SelState × Trace
  | s, [] => (s, [])
  | s, y :: ys =>
    if is_complete s then (s, [])
    else
      let p := phase1Year env condition s y
      let q := phase1Years env condition p.1 ys
      (q.1, p.2 ++ q.2)

/-- The descending year iteration range(years[1], years[0] - 1, -1). -/
def yearRange (lo hi : Int) : List Int :=
  (List.range (hi - lo + 1).toNat).map (fun i => hi - i)

/-- Phase 1 condition loop: break on is_complete before each condition. -/
def phase1Conditions (env : Env) (years : Int × Int) :
    SelState → List String → SelState × Trace
  | s, [] => (s, [])
  | s, c :: cs =>
    if is_complete s then (s, [])
    else
      let p := phase1Years env c s (yearRange years.1 years.2)
      let q := phase1Conditions env years p.1 cs
      (q.1, p.2 ++ q.2)

/-- Phase 2 handling of one search result of a compound query targeted at
an outcome: skip seen urls, fetch and parse (log-and-skip on failure),
reject unless the classifier output equals the targeted outcome,
otherwise record the url as seen and accept. -/
def phase2Candidate (env : Env) (condition outcome : String) (s : SelState)
    (r : SearchResult) : SelState × Trace :=
  if s.seen_urls.contains r.url then (s, [])
  else
    match env.fetch_decision_text r.url with
    | .error _ => (s, [(.fetchCall r.url, s)])
    | .ok text =>
      match env.parse_decision text with
      | .error _ => (s, [(.fetchCall r.url, s)])
      | .ok parsed =>
        let actual_outcome := pyLower (parsed.outcome.getD "")
        if actual_outcome ≠ outcome then
          (s, [(.fetchCall r.url, s), (.decided, s)])
        else
          let sSeen := { s with seen_urls := addSeen s.seen_urls r.url }
          let d : Decision :=
            { url := r.url, case_number := r.case_number, year := r.year
              condition := condition, outcome := actual_outcome
              parsed := parsed, text := text
              has_private_nexus := env.has_private_nexus text
              has_exam_inadequacy := env.has_exam_inadequacy text
              priority := none }
          let sAcc := add_decision sSeen d
          (sAcc, [(.fetchCall r.url, s), (.decided, sAcc)])

/-- Phase 2 results loop: break once the targeted outcome reached its
quota, before each candidate. -/
def phase2Results (env : Env) (condition outcome : String) (quota : Nat) :
    SelState → List SearchResult → SelState × Trace
  | s, [] => (s, [])
  | s, r :: rs =>
    if quota ≤ get_outcome_count s outcome then (s, [])
    else
      let p := phase2Candidate env condition outcome s r
      let q := phase2Results env condition outcome quota p.1 rs
      (q.1, p.2 ++ q.2)

/-- Phase 2 condition loop for one deficient outcome: break once the
quota is reached; the compound query is condition, a space, the outcome;
the search year is fixed at 2024 with max_results 20; search failures are
logged and skipped. -/
def phase2Conditions (env : Env) (outcome : String) (quota : Nat) :
    SelState → List String → SelState × Trace
  | s, [] => (s, [])
  | s, c :: cs =>
    if quota ≤ get_outcome_count s outcome then (s, [])
    else
      let query := c ++ " " ++ outcome
      match env.search_bva query 2024 20 with
      | .error _ =>
        let q := phase2Conditions env outcome quota s cs
        (q.1, (.searchCall query 2024 20, s) :: q.2)
      | .ok results =>
        let p := phase2Results env c outcome quota s results
        let q := phase2Conditions env outcome quota p.1 cs
        (q.1, ((.searchCall query 2024 20, s) :: p.2) ++ q.2)

/-- Phase 2 outcome loop: iterate the quota items in declaration order,
entering the condition loop only for outcomes still short of quota. -/
def phase2Outcomes (env : Env) (conditions : List String) :
    SelState → List (String × Nat) → SelState × Trace
  | s, [] => (s, [])
  | s, oq :: rest =>
    if get_outcome_count s oq.1 < oq.2 then
      let p := phase2Conditions env oq.1 oq.2 s conditions
      let q := phase2Outcomes env conditions p.1 rest
      (q.1, p.2 ++ q.2)
    else
      phase2Outcomes env conditions s rest

/-- The result of a run: the final selector state, the instrumentation
trace, and the value returned to the caller, which in the source is only
selected[:100]. -/
structure RunResult where
  state : SelState
  trace : Trace
  returned : List Decision

/-- BalancedSelector.select_100_decisions: Phase 1 over all conditions
and the descending year range, then Phase 2 only if Phase 1 did not
complete, then return selected[:100]. -/
def select_100_decisions (env : Env) (years : Int × Int) : RunResult :=
  let s0 := initState
  let p1 := phase1Conditions env years s0 s0.conditions
  let p2 :=
    if is_complete p1.1 then (p1.1, ([] : Trace))
    else phase2Outcomes env p1.1.conditions p1.1 p1.1.quotas
  { state := p2.1, trace := p1.2 ++ p2.2, returned := p2.1.selected.take 100 }

/-- The module-level convenience function select_100_balanced: construct
a fresh selector and run it with the default years (2023, 2025); the
caller receives only the list of decisions. -/
def select_100_balanced (env : Env) : List Decision :=
  (select_100_decisions env (2023, 2025)).returned

/-- The classification a given locator would receive: fetch then parse,
none if either collaborator fails, otherwise the lowered outcome string.
Both collaborators are deterministic functions, so this is exactly what
every evaluation of the locator during a run computes. -/
def classifyURL (env : Env) (u : String) : Option String :=
  match env.fetch_decision_text u with
  | .error _ => none
  | .ok text =>
    match env.parse_decision text with
    | .error _ => none
    | .ok parsed => some (pyLower (parsed.outcome.getD ""))

/-- Whether the document at a locator carries the private nexus feature
(false if the fetch fails). -/
def pnURL (env : Env) (u : String) : Bool :=
  match env.fetch_decision_text u with
  | .error _ => false
  | .ok text => env.has_private_nexus text

/-- Whether the document at a locator carries the exam inadequacy feature
(false if the fetch fails). -/
def eiURL (env : Env) (u : String) : Bool :=
  match env.fetch_decision_text u with
  | .error _ => false
  | .ok text => env.has_exam_inadequacy text

/-- The candidate page one Phase 1 (condition, year) search yields: the
results on success, nothing on a search failure. -/
def pageFor (env : Env) (condition : String) (year : Int) : List SearchResult :=
  match env.search_bva condition year 30 with
  | .ok rs => rs
  | .error _ => []

/-- All candidates the Phase 1 year loop of one condition can see. -/
def yearsStream (env : Env) (condition : String) (ys : List Int) : List SearchResult :=
  (ys.map (pageFor env condition)).flatten

/-- All candidates the Phase 1 condition loop can see. -/
def condsStream (env : Env) (years : Int × Int) (cs : List String) : List SearchResult :=
  (cs.map (fun c => yearsStream env c (yearRange years.1 years.2))).flatten

/-- The full Phase 1 candidate stream of a run: every candidate a run
with this environment can evaluate in Phase 1, in processing order. -/
def phase1Stream (env : Env) (years : Int × Int) : List SearchResult :=
  condsStream env years initState.conditions

/-- The locators in a candidate list that are not yet seen in state s and
would classify to outcome o: the fresh qualifying candidates for o. -/
def freshSet (env : Env) (o : String) (s : SelState) (rs : List SearchResult) :
    Finset String :=
  ((rs.map SearchResult.url).toFinset.filter (fun u => classifyURL env u = some o)) \
    s.seen_urls.toFinset

section ConcreteEnvs

/-- Search result with url and case number built from a prefix and an
index, used to populate concrete candidate streams. -/
def mkSR (pre : String) (i : Nat) : SearchResult :=
  { url := pre ++ toString i, case_number := pre ++ toString i, year := 2025 }

/-- A block of consecutive search results sharing a url prefix. -/
def blockFrom (pre : String) (start n : Nat) : List SearchResult :=
  (List.range n).map (fun i => mkSR pre (start + i))

/-- First character of a string, used by the concrete classifiers. -/
def firstChar (s : String) : Option Char := s.data.head?

/-- Concrete classifier outcome by url prefix: g and p documents are
Granted, d Denied, r Remanded, m Mixed, anything else unmatched.  The
capitalization mirrors the strings the repository parser produces. -/
def catOutcome (t : String) : Option String :=
  match firstChar t with
  | some c =>
    if c = 'g' ∨ c = 'p' then some "Granted"
    else if c = 'd' then some "Denied"
    else if c = 'r' then some "Remanded"
    else if c = 'm' then some "Mixed"
    else none
  | none => none

/-- Environment whose collaborators all fail or return nothing: every
search raises and every fetch raises, modelling a fully exhausted or
unreachable stream. -/
def offlineEnv : Env :=
  { search_bva := fun _ _ _ => .error ()
    fetch_decision_text := fun _ => .error ()
    parse_decision := fun _ => .error ()
    has_private_nexus := fun _ => false
    has_exam_inadequacy := fun _ => false }

/-- Deadlock environment: Phase 1 first yields 25 featureless candidates
of each category (urls g0 to g24, d0 to d24, r0 to r24, m0 to m24), and
only afterwards 10 candidates p0 to p9 that are Granted and carry both
special features.  Every fetch succeeds and the document text is the url
itself.  The stream therefore contains a subset satisfying every quota:
15 plain granted plus the 10 featured granted plus 25 of each other
category. -/
def cexEnv : Env :=
  { search_bva := fun q y _ =>
      if q = "tinnitus" ∧ y = 2025 then
        .ok (blockFrom "g" 0 25 ++ blockFrom "d" 0 5)
      else if q = "tinnitus" ∧ y = 2024 then
        .ok (blockFrom "d" 5 20 ++ blockFrom "r" 0 10)
      else if q = "tinnitus" ∧ y = 2023 then
        .ok (blockFrom "r" 10 15 ++ blockFrom "m" 0 15)
      else if q = "sleep apnea secondary" ∧ y = 2025 then
        .ok (blockFrom "m" 15 10 ++ blockFrom "p" 0 10)
      else .ok []
    fetch_decision_text := fun u => .ok u
    parse_decision := fun t => .ok ⟨catOutcome t⟩
    has_private_nexus := fun t => firstChar t == some 'p'
    has_exam_inadequacy := fun t => firstChar t == some 'p' }

/-- The run of the selector on the deadlock environment. -/
def cexRun : RunResult := select_100_decisions cexEnv (2023, 2025)

/-- A candidate whose document parses to no outcome. -/
def dupR : SearchResult := { url := "dup", case_number := "dup", year := 2025 }

/-- Environment whose first Phase 1 page lists the same locator twice,
with a document that classifies to no known outcome, so the candidate is
evaluated and rejected each time. -/
def dupEnv : Env :=
  { search_bva := fun q y _ =>
      if q = "tinnitus" ∧ y = 2025 then .ok [dupR, dupR] else .ok []
    fetch_decision_text := fun u => .ok u
    parse_decision := fun _ => .ok ⟨none⟩
    has_private_nexus := fun _ => false
    has_exam_inadequacy := fun _ => false }

/-- The run of the selector on the duplicate environment. -/
def dupRun : RunResult := select_100_decisions dupEnv (2023, 2025)

/-- A featureless decision of the given outcome, used to build concrete
states whose category quotas are all met. -/
def fullDecision (o : String) : Decision :=
  { url := o, case_number := o, year := 2025, condition := "tinnitus", outcome := o,
    parsed := ⟨some o⟩, text := o, has_private_nexus := false,
    has_exam_inadequacy := false, priority := some 0 }

/-- A concrete state in which every category quota is met exactly by
featureless decisions, while both special counts are still zero. -/
def fullState : SelState :=
  { initState with selected :=
      List.replicate 25 (fullDecision "granted") ++
      List.replicate 25 (fullDecision "denied") ++
      List.replicate 25 (fullDecision "remanded") ++
      List.replicate 25 (fullDecision "mixed") }

end ConcreteEnvs

/-- Configuration and flow invariant between two states: the fixed
configuration dicts are unchanged and the accepted sequence of the second
extends the first (append only, no eviction). -/
def Step (s t : SelState) : Prop :=
  t.quotas = s.quotas ∧ t.special_quotas = s.special_quotas ∧
  t.conditions = s.conditions ∧ ∃ l, t.selected = s.selected ++ l

/-- No category quota is overshot: for every hardcoded quota entry the
outcome count is at most the target. -/
def NoOvershoot (s : SelState) : Prop :=
  ∀ p ∈ initQuotas, get_outcome_count s p.1 ≤ p.2

/-- Invariant of every reachable selector state: the configuration dicts
are the hardcoded ones, seen_urls is exactly the list of accepted
locators in order, accepted locators are pairwise distinct, every
accepted decision stores the classification its locator deterministically
receives, and no quota is overshot. -/
def InvOK (env : Env) (s : SelState) : Prop :=
  s.quotas = initQuotas ∧ s.special_quotas = initSpecialQuotas ∧
  s.seen_urls = s.selected.map Decision.url ∧
  (s.selected.map Decision.url).Nodup ∧
  (∀ d ∈ s.selected, classifyURL env d.url = some d.outcome) ∧
  NoOvershoot s

/-- Every hardcoded outcome quota has been reached (given no-overshoot,
met exactly). -/
def CategoriesFull (s : SelState) : Prop :=
  ∀ p ∈ initQuotas, p.2 ≤ get_outcome_count s p.1

/-- An event is a collaborator call (search or fetch), as opposed to an
accept/reject decision marker. -/
def Ev.isCall : Ev → Bool
  | .searchCall _ _ _ => true
  | .fetchCall _ => true
  | .decided => false

section LowerLemmas

/-- Converting an ASCII uppercase code shifted by 32 back to a numeral. -/
theorem charOfNat_shift : ∀ n : Nat, n < 91 → 65 ≤ n →
    (Char.ofNat (n + 32)).toNat = n + 32 := by
  decide

/-- Lowering a character twice is the same as lowering it once. -/
theorem pyLowerChar_idem (c : Char) : pyLowerChar (pyLowerChar c) = pyLowerChar c := by
  unfold pyLowerChar
  by_cases h : 65 ≤ c.toNat ∧ c.toNat ≤ 90
  · simp only [if_pos h]
    have hof : (Char.ofNat (c.toNat + 32)).toNat = c.toNat + 32 :=
      charOfNat_shift c.toNat (by omega) (by omega)
    have : ¬ (65 ≤ (Char.ofNat (c.toNat + 32)).toNat ∧
        (Char.ofNat (c.toNat + 32)).toNat ≤ 90) := by
      rw [hof]; omega
    simp only [if_neg this]
  · simp only [if_neg h]

/-- Lowering a string twice is the same as lowering it once. -/
theorem pyLower_idem (s : String) : pyLower (pyLower s) = pyLower s := by
  unfold pyLower
  simp [List.map_map, Function.comp_def, pyLowerChar_idem]

/-- The hardcoded quota keys are already lowercase. -/
theorem initQuotas_keys_lower : ∀ p ∈ initQuotas, pyLower p.1 = p.1 := by decide

/-- Looking up the lowered form of a hardcoded quota key returns its
target. -/
theorem lookupD_initQuotas : ∀ p ∈ initQuotas, lookupD initQuotas (pyLower p.1) 0 = p.2 := by
  decide

/-- Entries of the hardcoded quota dict are determined by their key. -/
theorem initQuotas_key_inj : ∀ p ∈ initQuotas, ∀ q ∈ initQuotas, p.1 = q.1 → p = q := by
  decide

end LowerLemmas

section StateLemmas

theorem add_decision_selected (s : SelState) (d : Decision) :
    (add_decision s d).selected = s.selected ++ [d] := by
  unfold add_decision
  by_cases h1 : d.has_private_nexus <;> by_cases h2 : d.has_exam_inadequacy <;>
    simp [h1, h2]

theorem add_decision_quotas (s : SelState) (d : Decision) :
    (add_decision s d).quotas = s.quotas := by
  unfold add_decision
  by_cases h1 : d.has_private_nexus <;> by_cases h2 : d.has_exam_inadequacy <;>
    simp [h1, h2]

theorem add_decision_special_quotas (s : SelState) (d : Decision) :
    (add_decision s d).special_quotas = s.special_quotas := by
  unfold add_decision
  by_cases h1 : d.has_private_nexus <;> by_cases h2 : d.has_exam_inadequacy <;>
    simp [h1, h2]

theorem add_decision_conditions (s : SelState) (d : Decision) :
    (add_decision s d).conditions = s.conditions := by
  unfold add_decision
  by_cases h1 : d.has_private_nexus <;> by_cases h2 : d.has_exam_inadequacy <;>
    simp [h1, h2]

theorem add_decision_seen (s : SelState) (d : Decision) :
    (add_decision s d).seen_urls = s.seen_urls := by
  unfold add_decision
  by_cases h1 : d.has_private_nexus <;> by_cases h2 : d.has_exam_inadequacy <;>
    simp [h1, h2]

/-- Counting after an acceptance: each count grows by one exactly when
the lowered outcome of the added decision matches the lowered key. -/
theorem get_outcome_count_add (s : SelState) (d : Decision) (o : String) :
    get_outcome_count (add_decision s d) o =
      get_outcome_count s o + (if pyLower d.outcome == pyLower o then 1 else 0) := by
  unfold get_outcome_count
  rw [add_decision_selected, List.filter_append, List.length_append]
  simp [List.filter]
  split <;> simp_all

end StateLemmas

section CandidateSpec

/-- Exhaustive description of the Phase 1 per-candidate step: a seen
locator is skipped untouched; a failing fetch or parse is logged and
skipped untouched; a candidate whose outcome quota is met is rejected
untouched; otherwise the locator is recorded and the decision appended. -/
theorem phase1Candidate_spec (env : Env) (c : String) (s : SelState) (r : SearchResult) :
    (r.url ∈ s.seen_urls ∧ phase1Candidate env c s r = (s, []))
    ∨ (r.url ∉ s.seen_urls ∧ classifyURL env r.url = none ∧
        phase1Candidate env c s r = (s, [(.fetchCall r.url, s)]))
    ∨ (∃ o, r.url ∉ s.seen_urls ∧ classifyURL env r.url = some o ∧
        needs_more s o = false ∧
        phase1Candidate env c s r = (s, [(.fetchCall r.url, s), (.decided, s)]))
    ∨ (∃ o d, r.url ∉ s.seen_urls ∧ classifyURL env r.url = some o ∧
        needs_more s o = true ∧ d.url = r.url ∧ d.outcome = o ∧ pyLower o = o ∧
        phase1Candidate env c s r =
          (add_decision { s with seen_urls := s.seen_urls ++ [r.url] } d,
           [(.fetchCall r.url, s),
            (.decided, add_decision { s with seen_urls := s.seen_urls ++ [r.url] } d)])) := by
  by_cases hmem : r.url ∈ s.seen_urls
  · exact Or.inl ⟨hmem, by simp [phase1Candidate, hmem]⟩
  · cases hf : env.fetch_decision_text r.url with
    | error e =>
      refine Or.inr (Or.inl ⟨hmem, ?_, ?_⟩)
      · simp [classifyURL, hf]
      · simp [phase1Candidate, hmem, hf]
    | ok text =>
      cases hp : env.parse_decision text with
      | error e =>
        refine Or.inr (Or.inl ⟨hmem, ?_, ?_⟩)
        · simp [classifyURL, hf, hp]
        · simp [phase1Candidate, hmem, hf, hp]
      | ok parsed =>
        have hclass : classifyURL env r.url = some (pyLower (parsed.outcome.getD "")) := by
          simp [classifyURL, hf, hp]
        have haddSeen : addSeen s.seen_urls r.url = s.seen_urls ++ [r.url] := by
          simp [addSeen, hmem]
        by_cases hn : needs_more s (pyLower (parsed.outcome.getD ""))
        · refine Or.inr (Or.inr (Or.inr ⟨pyLower (parsed.outcome.getD ""),
            { url := r.url, case_number := r.case_number, year := r.year,
              condition := c, outcome := pyLower (parsed.outcome.getD "")
              parsed := parsed, text := text
              has_private_nexus := env.has_private_nexus text
              has_exam_inadequacy := env.has_exam_inadequacy text
              priority := some
                ((if needs_special s "private_nexus" && env.has_private_nexus text
                    then 2 else 0) +
                 (if needs_special s "exam_inadequacy" && env.has_exam_inadequacy text
                    then 2 else 0)) },
            ?_, ?_, ?_, ?_, ?_, ?_, ?_⟩))
          · exact hmem
          · exact hclass
          · exact hn
          · rfl
          · rfl
          · exact pyLower_idem _
          · simp [phase1Candidate, hmem, hf, hp, hn, haddSeen]
        · refine Or.inr (Or.inr (Or.inl ⟨pyLower (parsed.outcome.getD ""), hmem, hclass,
            Bool.not_eq_true _ ▸ hn, ?_⟩))
          simp [phase1Candidate, hmem, hf, hp, hn]

/-- Exhaustive description of the Phase 2 per-candidate step: a seen
locator is skipped untouched; a failing fetch or parse is skipped
untouched; a candidate whose classified outcome differs from the targeted
outcome is rejected untouched; otherwise the locator is recorded and the
decision appended with the classified outcome. -/
theorem phase2Candidate_spec (env : Env) (c outcome : String) (s : SelState) (r : SearchResult) :
    (r.url ∈ s.seen_urls ∧ phase2Candidate env c outcome s r = (s, []))
    ∨ (r.url ∉ s.seen_urls ∧ classifyURL env r.url = none ∧
        phase2Candidate env c outcome s r = (s, [(.fetchCall r.url, s)]))
    ∨ (∃ a, r.url ∉ s.seen_urls ∧ classifyURL env r.url = some a ∧ a ≠ outcome ∧
        phase2Candidate env c outcome s r = (s, [(.fetchCall r.url, s), (.decided, s)]))
    ∨ (∃ d, r.url ∉ s.seen_urls ∧ classifyURL env r.url = some outcome ∧
        d.url = r.url ∧ d.outcome = outcome ∧ pyLower outcome = outcome ∧
        phase2Candidate env c outcome s r =
          (add_decision { s with seen_urls := s.seen_urls ++ [r.url] } d,
           [(.fetchCall r.url, s),
            (.decided, add_decision { s with seen_urls := s.seen_urls ++ [r.url] } d)])) := by
  by_cases hmem : r.url ∈ s.seen_urls
  · exact Or.inl ⟨hmem, by simp [phase2Candidate, hmem]⟩
  · cases hf : env.fetch_decision_text r.url with
    | error e =>
      refine Or.inr (Or.inl ⟨hmem, ?_, ?_⟩)
      · simp [classifyURL, hf]
      · simp [phase2Candidate, hmem, hf]
    | ok text =>
      cases hp : env.parse_decision text with
      | error e =>
        refine Or.inr (Or.inl ⟨hmem, ?_, ?_⟩)
        · simp [classifyURL, hf, hp]
        · simp [phase2Candidate, hmem, hf, hp]
      | ok parsed =>
        have hclass : classifyURL env r.url = some (pyLower (parsed.outcome.getD "")) := by
          simp [classifyURL, hf, hp]
        have haddSeen : addSeen s.seen_urls r.url = s.seen_urls ++ [r.url] := by
          simp [addSeen, hmem]
        by_cases hne : pyLower (parsed.outcome.getD "") = outcome
        · refine Or.inr (Or.inr (Or.inr ⟨
            { url := r.url, case_number := r.case_number, year := r.year,
              condition := c, outcome := pyLower (parsed.outcome.getD "")
              parsed := parsed, text := text
              has_private_nexus := env.has_private_nexus text
              has_exam_inadequacy := env.has_exam_inadequacy text
              priority := none },
            ?_, ?_, ?_, ?_, ?_, ?_⟩))
          · exact hmem
          · exact hne ▸ hclass
          · rfl
          · exact hne
          · exact hne ▸ pyLower_idem _
          · simp [phase2Candidate, hmem, hf, hp, hne, haddSeen]
        · refine Or.inr (Or.inr (Or.inl ⟨pyLower (parsed.outcome.getD ""), hmem, hclass,
            hne, ?_⟩))
          simp [phase2Candidate, hmem, hf, hp, hne]

end CandidateSpec

section LoopEquations

theorem phase1Results_nil (env : Env) (c : String) (s : SelState) :
    phase1Results env c s [] = (s, []) := rfl

theorem phase1Results_stop_state (env : Env) (c : String) (s : SelState)
    (r : SearchResult) (rs : List SearchResult) (h : is_complete s = true) :
    (phase1Results env c s (r :: rs)).1 = s := by
  rw [phase1Results]
  simp [h]

theorem phase1Results_stop_trace (env : Env) (c : String) (s : SelState)
    (r : SearchResult) (rs : List SearchResult) (h : is_complete s = true) :
    (phase1Results env c s (r :: rs)).2 = [] := by
  rw [phase1Results]
  simp [h]

theorem phase1Results_go_state (env : Env) (c : String) (s : SelState)
    (r : SearchResult) (rs : List SearchResult) (h : is_complete s = false) :
    (phase1Results env c s (r :: rs)).1 =
      (phase1Results env c (phase1Candidate env c s r).1 rs).1 := by
  rw [phase1Results]
  simp [h]

theorem phase1Results_go_trace (env : Env) (c : String) (s : SelState)
    (r : SearchResult) (rs : List SearchResult) (h : is_complete s = false) :
    (phase1Results env c s (r :: rs)).2 =
      (phase1Candidate env c s r).2 ++
      (phase1Results env c (phase1Candidate env c s r).1 rs).2 := by
  rw [phase1Results]
  simp [h]

theorem phase1Year_err_state (env : Env) (c : String) (s : SelState) (y : Int)
    (e : Unit) (h : env.search_bva c y 30 = .error e) :
    (phase1Year env c s y).1 = s := by
  rw [phase1Year, h]

theorem phase1Year_err_trace (env : Env) (c : String) (s : SelState) (y : Int)
    (e : Unit) (h : env.search_bva c y 30 = .error e) :
    (phase1Year env c s y).2 = [(.searchCall c y 30, s)] := by
  rw [phase1Year, h]

theorem phase1Year_ok_state (env : Env) (c : String) (s : SelState) (y : Int)
    (results : List SearchResult) (h : env.search_bva c y 30 = .ok results) :
    (phase1Year env c s y).1 = (phase1Results env c s results).1 := by
  rw [phase1Year, h]

theorem phase1Year_ok_trace (env : Env) (c : String) (s : SelState) (y : Int)
    (results : List SearchResult) (h : env.search_bva c y 30 = .ok results) :
    (phase1Year env c s y).2 =
      (.searchCall c y 30, s) :: (phase1Results env c s results).2 := by
  rw [phase1Year, h]

theorem phase1Years_nil (env : Env) (c : String) (s : SelState) :
    phase1Years env c s [] = (s, []) := rfl

theorem phase1Years_stop_state (env : Env) (c : String) (s : SelState)
    (y : Int) (ys : List Int) (h : is_complete s = true) :
    (phase1Years env c s (y :: ys)).1 = s := by
  rw [phase1Years]
  simp [h]

theorem phase1Years_stop_trace (env : Env) (c : String) (s : SelState)
    (y : Int) (ys : List Int) (h : is_complete s = true) :
    (phase1Years env c s (y :: ys)).2 = [] := by
  rw [phase1Years]
  simp [h]

theorem phase1Years_go_state (env : Env) (c : String) (s : SelState)
    (y : Int) (ys : List Int) (h : is_complete s = false) :
    (phase1Years env c s (y :: ys)).1 =
      (phase1Years env c (phase1Year env c s y).1 ys).1 := by
  rw [phase1Years]
  simp [h]

theorem phase1Years_go_trace (env : Env) (c : String) (s : SelState)
    (y : Int) (ys : List Int) (h : is_complete s = false) :
    (phase1Years env c s (y :: ys)).2 =
      (phase1Year env c s y).2 ++ (phase1Years env c (phase1Year env c s y).1 ys).2 := by
  rw [phase1Years]
  simp [h]

theorem phase1Conditions_nil (env : Env) (years : Int × Int) (s : SelState) :
    phase1Conditions env years s [] = (s, []) := rfl

theorem phase1Conditions_stop_state (env : Env) (years : Int × Int) (s : SelState)
    (c : String) (cs : List String) (h : is_complete s = true) :
    (phase1Conditions env years s (c :: cs)).1 = s := by
  rw [phase1Conditions]
  simp [h]

theorem phase1Conditions_stop_trace (env : Env) (years : Int × Int) (s : SelState)
    (c : String) (cs : List String) (h : is_complete s = true) :
    (phase1Conditions env years s (c :: cs)).2 = [] := by
  rw [phase1Conditions]
  simp [h]

theorem phase1Conditions_go_state (env : Env) (years : Int × Int) (s : SelState)
    (c : String) (cs : List String) (h : is_complete s = false) :
    (phase1Conditions env years s (c :: cs)).1 =
      (phase1Conditions env years (phase1Years env c s (yearRange years.1 years.2)).1 cs).1 := by
  rw [phase1Conditions]
  simp [h]

theorem phase1Conditions_go_trace (env : Env) (years : Int × Int) (s : SelState)
    (c : String) (cs : List String) (h : is_complete s = false) :
    (phase1Conditions env years s (c :: cs)).2 =
      (phase1Years env c s (yearRange years.1 years.2)).2 ++
      (phase1Conditions env years (phase1Years env c s (yearRange years.1 years.2)).1 cs).2 := by
  rw [phase1Conditions]
  simp [h]

theorem phase2Results_nil (env : Env) (c outcome : String) (quota : Nat) (s : SelState) :
    phase2Results env c outcome quota s [] = (s, []) := rfl

theorem phase2Results_stop_state (env : Env) (c outcome : String) (quota : Nat)
    (s : SelState) (r : SearchResult) (rs : List SearchResult)
    (h : quota ≤ get_outcome_count s outcome) :
    (phase2Results env c outcome quota s (r :: rs)).1 = s := by
  rw [phase2Results]
  simp [h]

theorem phase2Results_stop_trace (env : Env) (c outcome : String) (quota : Nat)
    (s : SelState) (r : SearchResult) (rs : List SearchResult)
    (h : quota ≤ get_outcome_count s outcome) :
    (phase2Results env c outcome quota s (r :: rs)).2 = [] := by
  rw [phase2Results]
  simp [h]

theorem phase2Results_go_state (env : Env) (c outcome : String) (quota : Nat)
    (s : SelState) (r : SearchResult) (rs : List SearchResult)
    (h : ¬ quota ≤ get_outcome_count s outcome) :
    (phase2Results env c outcome quota s (r :: rs)).1 =
      (phase2Results env c outcome quota (phase2Candidate env c outcome s r).1 rs).1 := by
  rw [phase2Results]
  simp [h]

theorem phase2Results_go_trace (env : Env) (c outcome : String) (quota : Nat)
    (s : SelState) (r : SearchResult) (rs : List SearchResult)
    (h : ¬ quota ≤ get_outcome_count s outcome) :
    (phase2Results env c outcome quota s (r :: rs)).2 =
      (phase2Candidate env c outcome s r).2 ++
      (phase2Results env c outcome quota (phase2Candidate env c outcome s r).1 rs).2 := by
  rw [phase2Results]
  simp [h]

theorem phase2Conditions_nil (env : Env) (outcome : String) (quota : Nat) (s : SelState) :
    phase2Conditions env outcome quota s [] = (s, []) := rfl

theorem phase2Conditions_stop_state (env : Env) (outcome : String) (quota : Nat)
    (s : SelState) (c : String) (cs : List String)
    (h : quota ≤ get_outcome_count s outcome) :
    (phase2Conditions env outcome quota s (c :: cs)).1 = s := by
  rw [phase2Conditions]
  simp [h]

theorem phase2Conditions_stop_trace (env : Env) (outcome : String) (quota : Nat)
    (s : SelState) (c : String) (cs : List String)
    (h : quota ≤ get_outcome_count s outcome) :
    (phase2Conditions env outcome quota s (c :: cs)).2 = [] := by
  rw [phase2Conditions]
  simp [h]

theorem phase2Conditions_err_state (env : Env) (outcome : String) (quota : Nat)
    (s : SelState) (c : String) (cs : List String) (e : Unit)
    (h : ¬ quota ≤ get_outcome_count s outcome)
    (hs : env.search_bva (c ++ " " ++ outcome) 2024 20 = .error e) :
    (phase2Conditions env outcome quota s (c :: cs)).1 =
      (phase2Conditions env outcome quota s cs).1 := by
  rw [phase2Conditions]
  simp [h, hs]

theorem phase2Conditions_err_trace (env : Env) (outcome : String) (quota : Nat)
    (s : SelState) (c : String) (cs : List String) (e : Unit)
    (h : ¬ quota ≤ get_outcome_count s outcome)
    (hs : env.search_bva (c ++ " " ++ outcome) 2024 20 = .error e) :
    (phase2Conditions env outcome quota s (c :: cs)).2 =
      (.searchCall (c ++ " " ++ outcome) 2024 20, s) ::
      (phase2Conditions env outcome quota s cs).2 := by
  rw [phase2Conditions]
  simp [h, hs]

theorem phase2Conditions_ok_state (env : Env) (outcome : String) (quota : Nat)
    (s : SelState) (c : String) (cs : List String) (results : List SearchResult)
    (h : ¬ quota ≤ get_outcome_count s outcome)
    (hs : env.search_bva (c ++ " " ++ outcome) 2024 20 = .ok results) :
    (phase2Conditions env outcome quota s (c :: cs)).1 =
      (phase2Conditions env outcome quota
        (phase2Results env c outcome quota s results).1 cs).1 := by
  rw [phase2Conditions]
  simp [h, hs]

theorem phase2Conditions_ok_trace (env : Env) (outcome : String) (quota : Nat)
    (s : SelState) (c : String) (cs : List String) (results : List SearchResult)
    (h : ¬ quota ≤ get_outcome_count s outcome)
    (hs : env.search_bva (c ++ " " ++ outcome) 2024 20 = .ok results) :
    (phase2Conditions env outcome quota s (c :: cs)).2 =
      (.searchCall (c ++ " " ++ outcome) 2024 20, s) ::
      ((phase2Results env c outcome quota s results).2 ++
       (phase2Conditions env outcome quota
         (phase2Results env c outcome quota s results).1 cs).2) := by
  rw [phase2Conditions]
  simp [h, hs]

theorem phase2Outcomes_nil (env : Env) (conditions : List String) (s : SelState) :
    phase2Outcomes env conditions s [] = (s, []) := rfl

theorem phase2Outcomes_enter_state (env : Env) (conditions : List String)
    (s : SelState) (oq : String × Nat) (rest : List (String × Nat))
    (h : get_outcome_count s oq.1 < oq.2) :
    (phase2Outcomes env conditions s (oq :: rest)).1 =
      (phase2Outcomes env conditions
        (phase2Conditions env oq.1 oq.2 s conditions).1 rest).1 := by
  rw [phase2Outcomes]
  simp [h]

theorem phase2Outcomes_enter_trace (env : Env) (conditions : List String)
    (s : SelState) (oq : String × Nat) (rest : List (String × Nat))
    (h : get_outcome_count s oq.1 < oq.2) :
    (phase2Outcomes env conditions s (oq :: rest)).2 =
      (phase2Conditions env oq.1 oq.2 s conditions).2 ++
      (phase2Outcomes env conditions
        (phase2Conditions env oq.1 oq.2 s conditions).1 rest).2 := by
  rw [phase2Outcomes]
  simp [h]

theorem phase2Outcomes_skip_state (env : Env) (conditions : List String)
    (s : SelState) (oq : String × Nat) (rest : List (String × Nat))
    (h : ¬ get_outcome_count s oq.1 < oq.2) :
    (phase2Outcomes env conditions s (oq :: rest)).1 =
      (phase2Outcomes env conditions s rest).1 := by
  rw [phase2Outcomes]
  simp [h]

theorem phase2Outcomes_skip_trace (env : Env) (conditions : List String)
    (s : SelState) (oq : String × Nat) (rest : List (String × Nat))
    (h : ¬ get_outcome_count s oq.1 < oq.2) :
    (phase2Outcomes env conditions s (oq :: rest)).2 =
      (phase2Outcomes env conditions s rest).2 := by
  rw [phase2Outcomes]
  simp [h]

theorem select_state_eq (env : Env) (years : Int × Int) :
    (select_100_decisions env years).state =
      (if is_complete (phase1Conditions env years initState initState.conditions).1 then
        (phase1Conditions env years initState initState.conditions).1
      else
        (phase2Outcomes env
          (phase1Conditions env years initState initState.conditions).1.conditions
          (phase1Conditions env years initState initState.conditions).1
          (phase1Conditions env years initState initState.conditions).1.quotas).1) := by
  unfold select_100_decisions
  by_cases h : is_complete (phase1Conditions env years initState initState.conditions).1 <;>
    simp [h]

theorem select_trace_eq (env : Env) (years : Int × Int) :
    (select_100_decisions env years).trace =
      (phase1Conditions env years initState initState.conditions).2 ++
      (if is_complete (phase1Conditions env years initState initState.conditions).1 then
        []
      else
        (phase2Outcomes env
          (phase1Conditions env years initState initState.conditions).1.conditions
          (phase1Conditions env years initState initState.conditions).1
          (phase1Conditions env years initState initState.conditions).1.quotas).2) := by
  unfold select_100_decisions
  by_cases h : is_complete (phase1Conditions env years initState initState.conditions).1 <;>
    simp [h]

theorem select_returned_eq (env : Env) (years : Int × Int) :
    (select_100_decisions env years).returned =
      (select_100_decisions env years).state.selected.take 100 := by
  unfold select_100_decisions
  by_cases h : is_complete (phase1Conditions env years initState initState.conditions).1 <;>
    simp [h]

end LoopEquations

section StepLemmas

theorem Step.refl (s : SelState) : Step s s :=
  ⟨rfl, rfl, rfl, [], by simp⟩

theorem Step.trans {s t u : SelState} (h1 : Step s t) (h2 : Step t u) : Step s u := by
  obtain ⟨q1, sq1, c1, l1, e1⟩ := h1
  obtain ⟨q2, sq2, c2, l2, e2⟩ := h2
  exact ⟨q2.trans q1, sq2.trans sq1, c2.trans c1, l1 ++ l2, by rw [e2, e1, List.append_assoc]⟩

theorem Step.count_le {s t : SelState} (h : Step s t) (o : String) :
    get_outcome_count s o ≤ get_outcome_count t o := by
  obtain ⟨_, _, _, l, e⟩ := h
  unfold get_outcome_count
  rw [e, List.filter_append, List.length_append]
  omega

theorem Step.quotas_eq {s t : SelState} (h : Step s t) : t.quotas = s.quotas := h.1

theorem add_decision_step (s : SelState) (d : Decision) :
    Step s (add_decision s d) :=
  ⟨add_decision_quotas s d, add_decision_special_quotas s d,
    add_decision_conditions s d, [d], add_decision_selected s d⟩

theorem phase1Candidate_step (env : Env) (c : String) (s : SelState) (r : SearchResult) :
    Step s (phase1Candidate env c s r).1 := by
  rcases phase1Candidate_spec env c s r with ⟨_, h⟩ | ⟨_, _, h⟩ | ⟨o, _, _, _, h⟩ |
    ⟨o, d, _, _, _, _, _, _, h⟩ <;> rw [h]
  · exact Step.refl s
  · exact Step.refl s
  · exact Step.refl s
  · exact Step.trans ⟨rfl, rfl, rfl, [], by simp⟩
      (add_decision_step { s with seen_urls := s.seen_urls ++ [r.url] } d)

theorem phase2Candidate_step (env : Env) (c outcome : String) (s : SelState)
    (r : SearchResult) : Step s (phase2Candidate env c outcome s r).1 := by
  rcases phase2Candidate_spec env c outcome s r with ⟨_, h⟩ | ⟨_, _, h⟩ |
    ⟨a, _, _, _, h⟩ | ⟨d, _, _, _, _, _, h⟩ <;> rw [h]
  · exact Step.refl s
  · exact Step.refl s
  · exact Step.refl s
  · exact Step.trans ⟨rfl, rfl, rfl, [], by simp⟩
      (add_decision_step { s with seen_urls := s.seen_urls ++ [r.url] } d)

theorem phase1Results_step (env : Env) (c : String) :
    ∀ (rs : List SearchResult) (s : SelState), Step s (phase1Results env c s rs).1
  | [], s => Step.refl s
  | r :: rs, s => by
    rw [phase1Results]
    by_cases hic : is_complete s
    · simp only [hic, if_true]
      exact Step.refl s
    · simp only [hic, if_false]
      exact Step.trans (phase1Candidate_step env c s r)
        (phase1Results_step env c rs (phase1Candidate env c s r).1)

theorem phase1Year_step (env : Env) (c : String) (s : SelState) (y : Int) :
    Step s (phase1Year env c s y).1 := by
  unfold phase1Year
  cases h : env.search_bva c y 30 with
  | error e => exact Step.refl s
  | ok results => exact phase1Results_step env c results s

theorem phase1Years_step (env : Env) (c : String) :
    ∀ (ys : List Int) (s : SelState), Step s (phase1Years env c s ys).1
  | [], s => Step.refl s
  | y :: ys, s => by
    rw [phase1Years]
    by_cases hic : is_complete s
    · simp only [hic, if_true]
      exact Step.refl s
    · simp only [hic, if_false]
      exact Step.trans (phase1Year_step env c s y)
        (phase1Years_step env c ys (phase1Year env c s y).1)

theorem phase1Conditions_step (env : Env) (years : Int × Int) :
    ∀ (cs : List String) (s : SelState), Step s (phase1Conditions env years s cs).1
  | [], s => Step.refl s
  | c :: cs, s => by
    rw [phase1Conditions]
    by_cases hic : is_complete s
    · simp only [hic, if_true]
      exact Step.refl s
    · simp only [hic, if_false]
      exact Step.trans (phase1Years_step env c (yearRange years.1 years.2) s)
        (phase1Conditions_step env years cs _)

theorem phase2Results_step (env : Env) (c outcome : String) (quota : Nat) :
    ∀ (rs : List SearchResult) (s : SelState),
      Step s (phase2Results env c outcome quota s rs).1
  | [], s => Step.refl s
  | r :: rs, s => by
    rw [phase2Results]
    by_cases hq : quota ≤ get_outcome_count s outcome
    · simp only [hq, if_true]
      exact Step.refl s
    · simp only [hq, if_false]
      exact Step.trans (phase2Candidate_step env c outcome s r)
        (phase2Results_step env c outcome quota rs _)

theorem phase2Conditions_step (env : Env) (outcome : String) (quota : Nat) :
    ∀ (cs : List String) (s : SelState),
      Step s (phase2Conditions env outcome quota s cs).1
  | [], s => Step.refl s
  | c :: cs, s => by
    rw [phase2Conditions]
    by_cases hq : quota ≤ get_outcome_count s outcome
    · simp only [hq, if_true]
      exact Step.refl s
    · simp only [hq, if_false]
      cases h : env.search_bva (c ++ " " ++ outcome) 2024 20 with
      | error e =>
        exact phase2Conditions_step env outcome quota cs s
      | ok results =>
        exact Step.trans (phase2Results_step env c outcome quota results s)
          (phase2Conditions_step env outcome quota cs _)

theorem phase2Outcomes_step (env : Env) (conditions : List String) :
    ∀ (L : List (String × Nat)) (s : SelState),
      Step s (phase2Outcomes env conditions s L).1
  | [], s => Step.refl s
  | oq :: rest, s => by
    rw [phase2Outcomes]
    by_cases hq : get_outcome_count s oq.1 < oq.2
    · simp only [hq, if_true]
      exact Step.trans (phase2Conditions_step env oq.1 oq.2 conditions s)
        (phase2Outcomes_step env conditions rest _)
    · simp only [hq, if_false]
      exact phase2Outcomes_step env conditions rest s

theorem select_step (env : Env) (years : Int × Int) :
    Step initState (select_100_decisions env years).state := by
  unfold select_100_decisions
  by_cases hic : is_complete (phase1Conditions env years initState initState.conditions).1
  · simp only [hic, if_true]
    exact phase1Conditions_step env years initState.conditions initState
  · simp only [hic, if_false]
    exact Step.trans (phase1Conditions_step env years initState.conditions initState)
      (phase2Outcomes_step env _ _ _)

end StepLemmas

section InvLemmas

theorem count_set_seen (s : SelState) (l : List String) (o : String) :
    get_outcome_count { s with seen_urls := l } o = get_outcome_count s o := rfl

theorem needs_more_set_seen (s : SelState) (l : List String) (o : String) :
    needs_more { s with seen_urls := l } o = needs_more s o := rfl

theorem count_congr_lower (s : SelState) (a b : String) (h : pyLower a = pyLower b) :
    get_outcome_count s a = get_outcome_count s b := by
  unfold get_outcome_count
  rw [h]

/-- An acceptance never overshoots a quota when the accepted outcome
still needed more, given the hardcoded quota dict. -/
theorem noOvershoot_accept_p1 (s : SelState) (d : Decision)
    (hq : s.quotas = initQuotas)
    (hlow : pyLower d.outcome = d.outcome)
    (hn : needs_more s d.outcome = true)
    (hno : NoOvershoot s) : NoOvershoot (add_decision s d) := by
  intro p hp
  rw [get_outcome_count_add]
  by_cases hmatch : (pyLower d.outcome == pyLower p.1) = true
  · have hkey : pyLower p.1 = p.1 := initQuotas_keys_lower p hp
    have heq : d.outcome = p.1 := by
      have hb : pyLower d.outcome = pyLower p.1 := beq_iff_eq.mp hmatch
      rw [hlow, hkey] at hb
      exact hb
    have hlt : get_outcome_count s d.outcome < lookupD s.quotas (pyLower d.outcome) 0 := by
      have := hn
      unfold needs_more at this
      exact of_decide_eq_true this
    rw [hq, hlow, heq] at hlt
    have hlk : lookupD initQuotas p.1 0 = p.2 := by
      have := lookupD_initQuotas p hp
      rwa [hkey] at this
    rw [hlk] at hlt
    rw [if_pos hmatch]
    omega
  · rw [if_neg hmatch]
    have := hno p hp
    omega

/-- A Phase 2 acceptance never overshoots: the accepted outcome is the
targeted one and its count is still below the targeted quota. -/
theorem noOvershoot_accept_p2 (s : SelState) (d : Decision) (outcome : String) (quota : Nat)
    (hmemQ : (outcome, quota) ∈ initQuotas)
    (_hq : s.quotas = initQuotas)
    (hd : d.outcome = outcome)
    (hlow : pyLower outcome = outcome)
    (hlt : get_outcome_count s outcome < quota)
    (hno : NoOvershoot s) : NoOvershoot (add_decision s d) := by
  intro p hp
  rw [get_outcome_count_add]
  by_cases hmatch : (pyLower d.outcome == pyLower p.1) = true
  · have hkey : pyLower p.1 = p.1 := initQuotas_keys_lower p hp
    have heq : outcome = p.1 := by
      have hb : pyLower d.outcome = pyLower p.1 := beq_iff_eq.mp hmatch
      rw [hd, hlow, hkey] at hb
      exact hb
    have hpq : (outcome, quota) = p := initQuotas_key_inj (outcome, quota) hmemQ p hp heq
    have hq2 : p.2 = quota := by rw [← hpq]
    have hcnt : get_outcome_count s p.1 < quota := by
      rw [← heq]
      exact hlt
    rw [if_pos hmatch]
    omega
  · rw [if_neg hmatch]
    have := hno p hp
    omega

/-- The initial selector state satisfies the reachability invariant. -/
theorem initState_inv (env : Env) : InvOK env initState := by
  refine ⟨rfl, rfl, rfl, ?_, ?_, ?_⟩
  · simp [initState]
  · intro d hd
    simp [initState] at hd
  · intro p hp
    have : get_outcome_count initState p.1 = 0 := by
      simp [get_outcome_count, initState]
    omega

/-- Phase 1 per-candidate preservation of the reachability invariant, for
the final state and for every state recorded in the trace. -/
theorem phase1Candidate_inv (env : Env) (c : String) (s : SelState) (r : SearchResult)
    (h : InvOK env s) :
    InvOK env (phase1Candidate env c s r).1 ∧
    ∀ e ∈ (phase1Candidate env c s r).2, InvOK env e.2 := by
  obtain ⟨hq, hsq, hseen, hnd, hcl, hno⟩ := h
  rcases phase1Candidate_spec env c s r with ⟨hm, heq⟩ | ⟨hm, hc, heq⟩ |
    ⟨o, hm, hc, hn, heq⟩ | ⟨o, d, hm, hc, hn, hdu, hdo, holow, heq⟩ <;> rw [heq]
  · exact ⟨⟨hq, hsq, hseen, hnd, hcl, hno⟩, by simp⟩
  · refine ⟨⟨hq, hsq, hseen, hnd, hcl, hno⟩, ?_⟩
    intro e he
    simp at he
    subst he
    exact ⟨hq, hsq, hseen, hnd, hcl, hno⟩
  · refine ⟨⟨hq, hsq, hseen, hnd, hcl, hno⟩, ?_⟩
    intro e he
    simp at he
    rcases he with he | he <;> subst he <;> exact ⟨hq, hsq, hseen, hnd, hcl, hno⟩
  · have hmap : r.url ∉ s.selected.map Decision.url := by
      rw [← hseen]
      exact hm
    have hinv2 : InvOK env (add_decision { s with seen_urls := s.seen_urls ++ [r.url] } d) := by
      refine ⟨?_, ?_, ?_, ?_, ?_, ?_⟩
      · rw [add_decision_quotas]
        exact hq
      · rw [add_decision_special_quotas]
        exact hsq
      · rw [add_decision_seen, add_decision_selected]
        simp only [List.map_append, List.map_cons, List.map_nil]
        rw [hseen, hdu]
      · rw [add_decision_selected]
        simp only [List.map_append, List.map_cons, List.map_nil]
        rw [hdu]
        refine List.Nodup.append hnd (List.nodup_singleton _) ?_
        intro x hx hxa
        rw [List.mem_singleton] at hxa
        subst hxa
        exact hmap hx
      · rw [add_decision_selected]
        intro d2 hd2
        rcases List.mem_append.mp hd2 with hold | hnew
        · exact hcl d2 hold
        · have : d2 = d := by simpa using hnew
          rw [this, hdu, hdo]
          exact hc
      · refine noOvershoot_accept_p1 _ d hq ?_ ?_ ?_
        · rw [hdo]
          exact holow
        · rw [needs_more_set_seen, hdo]
          exact hn
        · intro p hp
          rw [count_set_seen]
          exact hno p hp
    refine ⟨hinv2, ?_⟩
    intro e he
    simp at he
    rcases he with he | he <;> subst he
    · exact ⟨hq, hsq, hseen, hnd, hcl, hno⟩
    · exact hinv2

/-- Phase 2 per-candidate preservation of the reachability invariant,
under the loop guard that the targeted outcome is still below its
hardcoded quota. -/
theorem phase2Candidate_inv (env : Env) (c outcome : String) (quota : Nat)
    (s : SelState) (r : SearchResult)
    (hmemQ : (outcome, quota) ∈ initQuotas)
    (hlt : get_outcome_count s outcome < quota)
    (h : InvOK env s) :
    InvOK env (phase2Candidate env c outcome s r).1 ∧
    ∀ e ∈ (phase2Candidate env c outcome s r).2, InvOK env e.2 := by
  obtain ⟨hq, hsq, hseen, hnd, hcl, hno⟩ := h
  rcases phase2Candidate_spec env c outcome s r with ⟨hm, heq⟩ | ⟨hm, hc, heq⟩ |
    ⟨a, hm, hc, hne, heq⟩ | ⟨d, hm, hc, hdu, hdo, holow, heq⟩ <;> rw [heq]
  · exact ⟨⟨hq, hsq, hseen, hnd, hcl, hno⟩, by simp⟩
  · refine ⟨⟨hq, hsq, hseen, hnd, hcl, hno⟩, ?_⟩
    intro e he
    simp at he
    subst he
    exact ⟨hq, hsq, hseen, hnd, hcl, hno⟩
  · refine ⟨⟨hq, hsq, hseen, hnd, hcl, hno⟩, ?_⟩
    intro e he
    simp at he
    rcases he with he | he <;> subst he <;> exact ⟨hq, hsq, hseen, hnd, hcl, hno⟩
  · have hmap : r.url ∉ s.selected.map Decision.url := by
      rw [← hseen]
      exact hm
    have hinv2 : InvOK env (add_decision { s with seen_urls := s.seen_urls ++ [r.url] } d) := by
      refine ⟨?_, ?_, ?_, ?_, ?_, ?_⟩
      · rw [add_decision_quotas]
        exact hq
      · rw [add_decision_special_quotas]
        exact hsq
      · rw [add_decision_seen, add_decision_selected]
        simp only [List.map_append, List.map_cons, List.map_nil]
        rw [hseen, hdu]
      · rw [add_decision_selected]
        simp only [List.map_append, List.map_cons, List.map_nil]
        rw [hdu]
        refine List.Nodup.append hnd (List.nodup_singleton _) ?_
        intro x hx hxa
        rw [List.mem_singleton] at hxa
        subst hxa
        exact hmap hx
      · rw [add_decision_selected]
        intro d2 hd2
        rcases List.mem_append.mp hd2 with hold | hnew
        · exact hcl d2 hold
        · have : d2 = d := by simpa using hnew
          rw [this, hdu, hdo]
          exact hc
      · refine noOvershoot_accept_p2 _ d outcome quota hmemQ hq hdo holow ?_ ?_
        · rw [count_set_seen]
          exact hlt
        · intro p hp
          rw [count_set_seen]
          exact hno p hp
    refine ⟨hinv2, ?_⟩
    intro e he
    simp at he
    rcases he with he | he <;> subst he
    · exact ⟨hq, hsq, hseen, hnd, hcl, hno⟩
    · exact hinv2

theorem phase1Results_inv (env : Env) (c : String) :
    ∀ (rs : List SearchResult) (s : SelState), InvOK env s →
      InvOK env (phase1Results env c s rs).1 ∧
      ∀ e ∈ (phase1Results env c s rs).2, InvOK env e.2
  | [], s, h => ⟨h, by simp [phase1Results]⟩
  | r :: rs, s, h => by
    by_cases hic : is_complete s
    · rw [phase1Results_stop_state env c s r rs hic,
        phase1Results_stop_trace env c s r rs hic]
      exact ⟨h, by simp⟩
    · have hic2 : is_complete s = false := by simpa using hic
      rw [phase1Results_go_state env c s r rs hic2,
        phase1Results_go_trace env c s r rs hic2]
      obtain ⟨h1, ht1⟩ := phase1Candidate_inv env c s r h
      obtain ⟨h2, ht2⟩ := phase1Results_inv env c rs (phase1Candidate env c s r).1 h1
      refine ⟨h2, ?_⟩
      intro e he
      rcases List.mem_append.mp he with he | he
      · exact ht1 e he
      · exact ht2 e he

theorem phase1Year_inv (env : Env) (c : String) (s : SelState) (y : Int)
    (h : InvOK env s) :
    InvOK env (phase1Year env c s y).1 ∧
    ∀ e ∈ (phase1Year env c s y).2, InvOK env e.2 := by
  unfold phase1Year
  cases hs : env.search_bva c y 30 with
  | error err =>
    refine ⟨h, ?_⟩
    intro e he
    simp at he
    subst he
    exact h
  | ok results =>
    obtain ⟨h1, ht1⟩ := phase1Results_inv env c results s h
    refine ⟨h1, ?_⟩
    intro e he
    simp only [List.mem_cons] at he
    rcases he with he | he
    · subst he
      exact h
    · exact ht1 e he

theorem phase1Years_inv (env : Env) (c : String) :
    ∀ (ys : List Int) (s : SelState), InvOK env s →
      InvOK env (phase1Years env c s ys).1 ∧
      ∀ e ∈ (phase1Years env c s ys).2, InvOK env e.2
  | [], s, h => ⟨h, by simp [phase1Years]⟩
  | y :: ys, s, h => by
    by_cases hic : is_complete s
    · rw [phase1Years_stop_state env c s y ys hic,
        phase1Years_stop_trace env c s y ys hic]
      exact ⟨h, by simp⟩
    · have hic2 : is_complete s = false := by simpa using hic
      rw [phase1Years_go_state env c s y ys hic2,
        phase1Years_go_trace env c s y ys hic2]
      obtain ⟨h1, ht1⟩ := phase1Year_inv env c s y h
      obtain ⟨h2, ht2⟩ := phase1Years_inv env c ys (phase1Year env c s y).1 h1
      refine ⟨h2, ?_⟩
      intro e he
      rcases List.mem_append.mp he with he | he
      · exact ht1 e he
      · exact ht2 e he

theorem phase1Conditions_inv (env : Env) (years : Int × Int) :
    ∀ (cs : List String) (s : SelState), InvOK env s →
      InvOK env (phase1Conditions env years s cs).1 ∧
      ∀ e ∈ (phase1Conditions env years s cs).2, InvOK env e.2
  | [], s, h => ⟨h, by simp [phase1Conditions]⟩
  | c :: cs, s, h => by
    by_cases hic : is_complete s
    · rw [phase1Conditions_stop_state env years s c cs hic,
        phase1Conditions_stop_trace env years s c cs hic]
      exact ⟨h, by simp⟩
    · have hic2 : is_complete s = false := by simpa using hic
      rw [phase1Conditions_go_state env years s c cs hic2,
        phase1Conditions_go_trace env years s c cs hic2]
      obtain ⟨h1, ht1⟩ := phase1Years_inv env c (yearRange years.1 years.2) s h
      obtain ⟨h2, ht2⟩ := phase1Conditions_inv env years cs _ h1
      refine ⟨h2, ?_⟩
      intro e he
      rcases List.mem_append.mp he with he | he
      · exact ht1 e he
      · exact ht2 e he

theorem phase2Results_inv (env : Env) (c outcome : String) (quota : Nat)
    (hmemQ : (outcome, quota) ∈ initQuotas) :
    ∀ (rs : List SearchResult) (s : SelState), InvOK env s →
      InvOK env (phase2Results env c outcome quota s rs).1 ∧
      ∀ e ∈ (phase2Results env c outcome quota s rs).2, InvOK env e.2
  | [], s, h => ⟨h, by simp [phase2Results]⟩
  | r :: rs, s, h => by
    rw [phase2Results]
    by_cases hq2 : quota ≤ get_outcome_count s outcome
    · simp only [hq2, if_true]
      exact ⟨h, by simp⟩
    · simp only [hq2, if_false]
      have hlt : get_outcome_count s outcome < quota := by omega
      obtain ⟨h1, ht1⟩ := phase2Candidate_inv env c outcome quota s r hmemQ hlt h
      obtain ⟨h2, ht2⟩ := phase2Results_inv env c outcome quota hmemQ rs
        (phase2Candidate env c outcome s r).1 h1
      refine ⟨h2, ?_⟩
      intro e he
      simp only [List.mem_append] at he
      rcases he with he | he
      · exact ht1 e he
      · exact ht2 e he

theorem phase2Conditions_inv (env : Env) (outcome : String) (quota : Nat)
    (hmemQ : (outcome, quota) ∈ initQuotas) :
    ∀ (cs : List String) (s : SelState), InvOK env s →
      InvOK env (phase2Conditions env outcome quota s cs).1 ∧
      ∀ e ∈ (phase2Conditions env outcome quota s cs).2, InvOK env e.2
  | [], s, h => ⟨h, by simp [phase2Conditions]⟩
  | c :: cs, s, h => by
    rw [phase2Conditions]
    by_cases hq2 : quota ≤ get_outcome_count s outcome
    · simp only [hq2, if_true]
      exact ⟨h, by simp⟩
    · simp only [hq2, if_false]
      cases hs : env.search_bva (c ++ " " ++ outcome) 2024 20 with
      | error err =>
        obtain ⟨h2, ht2⟩ := phase2Conditions_inv env outcome quota hmemQ cs s h
        refine ⟨h2, ?_⟩
        intro e he
        simp only [List.mem_cons] at he
        rcases he with he | he
        · subst he
          exact h
        · exact ht2 e he
      | ok results =>
        obtain ⟨h1, ht1⟩ := phase2Results_inv env c outcome quota hmemQ results s h
        obtain ⟨h2, ht2⟩ := phase2Conditions_inv env outcome quota hmemQ cs
          (phase2Results env c outcome quota s results).1 h1
        refine ⟨h2, ?_⟩
        intro e he
        simp only [List.cons_append, List.mem_cons, List.mem_append] at he
        rcases he with he | he | he
        · subst he
          exact h
        · exact ht1 e he
        · exact ht2 e he

theorem phase2Outcomes_inv (env : Env) (conditions : List String) :
    ∀ (L : List (String × Nat)) (s : SelState), (∀ p ∈ L, p ∈ initQuotas) →
      InvOK env s →
      InvOK env (phase2Outcomes env conditions s L).1 ∧
      ∀ e ∈ (phase2Outcomes env conditions s L).2, InvOK env e.2
  | [], s, _, h => ⟨h, by simp [phase2Outcomes]⟩
  | oq :: rest, s, hL, h => by
    rw [phase2Outcomes]
    have hoq : (oq.1, oq.2) ∈ initQuotas := hL oq (by simp)
    by_cases hq2 : get_outcome_count s oq.1 < oq.2
    · simp only [hq2, if_true]
      obtain ⟨h1, ht1⟩ := phase2Conditions_inv env oq.1 oq.2 hoq conditions s h
      obtain ⟨h2, ht2⟩ := phase2Outcomes_inv env conditions rest
        (phase2Conditions env oq.1 oq.2 s conditions).1
        (fun p hp => hL p (List.mem_cons_of_mem _ hp)) h1
      refine ⟨h2, ?_⟩
      intro e he
      simp only [List.mem_append] at he
      rcases he with he | he
      · exact ht1 e he
      · exact ht2 e he
    · simp only [hq2, if_false]
      exact phase2Outcomes_inv env conditions rest s
        (fun p hp => hL p (List.mem_cons_of_mem _ hp)) h

/-- The reachability invariant holds for the final state of every run and
for every state recorded in its trace. -/
theorem select_inv (env : Env) (years : Int × Int) :
    InvOK env (select_100_decisions env years).state ∧
    ∀ e ∈ (select_100_decisions env years).trace, InvOK env e.2 := by
  unfold select_100_decisions
  obtain ⟨h1, ht1⟩ := phase1Conditions_inv env years initState.conditions initState
    (initState_inv env)
  by_cases hic : is_complete (phase1Conditions env years initState initState.conditions).1
  · simp only [hic, if_true]
    refine ⟨h1, ?_⟩
    intro e he
    simp only [List.append_nil] at he
    exact ht1 e he
  · simp only [hic, if_false]
    have hLq : ∀ p ∈ (phase1Conditions env years initState initState.conditions).1.quotas,
        p ∈ initQuotas := by
      rw [h1.1]
      intro p hp
      exact hp
    obtain ⟨h2, ht2⟩ := phase2Outcomes_inv env
      (phase1Conditions env years initState initState.conditions).1.conditions
      (phase1Conditions env years initState initState.conditions).1.quotas
      (phase1Conditions env years initState initState.conditions).1 hLq h1
    refine ⟨h2, ?_⟩
    intro e he
    simp only [List.mem_append] at he
    rcases he with he | he
    · exact ht1 e he
    · exact ht2 e he

end InvLemmas

section CompleteLemmas

theorem is_complete_counts {s : SelState} (p : String × Nat)
    (hp : p ∈ s.quotas) (h : is_complete s = true) :
    p.2 ≤ get_outcome_count s p.1 := by
  unfold is_complete at h
  rw [Bool.and_eq_true] at h
  exact of_decide_eq_true (List.all_eq_true.mp h.1 p hp)

theorem is_complete_specials {s : SelState} (p : String × Nat)
    (hp : p ∈ s.special_quotas) (h : is_complete s = true) :
    p.2 ≤ lookupD s.special_counts p.1 0 := by
  unfold is_complete at h
  rw [Bool.and_eq_true] at h
  exact of_decide_eq_true (List.all_eq_true.mp h.2 p hp)

theorem incomplete_of_deficit {s : SelState} (p : String × Nat)
    (hp : p ∈ s.quotas) (h : get_outcome_count s p.1 < p.2) :
    is_complete s = false := by
  cases hc : is_complete s with
  | false => rfl
  | true =>
    have := is_complete_counts p hp hc
    omega

theorem incomplete_of_special_deficit {s : SelState} (p : String × Nat)
    (hp : p ∈ s.special_quotas) (h : lookupD s.special_counts p.1 0 < p.2) :
    is_complete s = false := by
  cases hc : is_complete s with
  | false => rfl
  | true =>
    have := is_complete_specials p hp hc
    omega

end CompleteLemmas

section FullLemmas

theorem lookupD_cases (m : List (String × Nat)) (k : String) (d : Nat) :
    lookupD m k d = d ∨ ∃ p ∈ m, p.1 = k ∧ lookupD m k d = p.2 := by
  unfold lookupD
  cases hf : m.find? (fun p => p.1 == k) with
  | none =>
    left
    rfl
  | some p =>
    right
    have hpk := List.find?_some hf
    exact ⟨p, List.mem_of_find?_eq_some hf, beq_iff_eq.mp hpk, rfl⟩

/-- Once every hardcoded quota is reached, no outcome whatsoever still
needs more decisions. -/
theorem needs_more_false_of_full {s : SelState} (hq : s.quotas = initQuotas)
    (hfull : CategoriesFull s) (o : String) : needs_more s o = false := by
  unfold needs_more
  rw [hq]
  rcases lookupD_cases initQuotas (pyLower o) 0 with h0 | ⟨p, hp, hk, hv⟩
  · rw [h0]
    simp
  · rw [hv]
    have hcnt : get_outcome_count s o = get_outcome_count s p.1 := by
      apply count_congr_lower
      rw [initQuotas_keys_lower p hp, hk]
    have hge := hfull p hp
    rw [hcnt]
    simp only [decide_eq_false_iff_not]
    omega

/-- In a categories-full state a Phase 1 candidate is always rejected and
the state is completely untouched. -/
theorem phase1Candidate_full (env : Env) (c : String) (s : SelState) (r : SearchResult)
    (hq : s.quotas = initQuotas) (hfull : CategoriesFull s) :
    (phase1Candidate env c s r).1 = s := by
  rcases phase1Candidate_spec env c s r with ⟨_, heq⟩ | ⟨_, _, heq⟩ |
    ⟨o, _, _, _, heq⟩ | ⟨o, d, _, _, hn, _, _, _, heq⟩ <;> rw [heq]
  exact absurd hn (by rw [needs_more_false_of_full hq hfull o]; simp)

theorem phase1Results_full_state (env : Env) (c : String) :
    ∀ (rs : List SearchResult) (s : SelState), s.quotas = initQuotas →
      CategoriesFull s → (phase1Results env c s rs).1 = s
  | [], s, _, _ => rfl
  | r :: rs, s, hq, hfull => by
    by_cases hic : is_complete s
    · exact phase1Results_stop_state env c s r rs hic
    · have hic2 : is_complete s = false := by simpa using hic
      rw [phase1Results_go_state env c s r rs hic2]
      rw [phase1Candidate_full env c s r hq hfull]
      exact phase1Results_full_state env c rs s hq hfull

theorem phase1Year_full_state (env : Env) (c : String) (s : SelState) (y : Int)
    (hq : s.quotas = initQuotas) (hfull : CategoriesFull s) :
    (phase1Year env c s y).1 = s := by
  cases hs : env.search_bva c y 30 with
  | error e => exact phase1Year_err_state env c s y e hs
  | ok results =>
    rw [phase1Year_ok_state env c s y results hs]
    exact phase1Results_full_state env c results s hq hfull

theorem phase1Years_full_state (env : Env) (c : String) :
    ∀ (ys : List Int) (s : SelState), s.quotas = initQuotas →
      CategoriesFull s → (phase1Years env c s ys).1 = s
  | [], s, _, _ => rfl
  | y :: ys, s, hq, hfull => by
    by_cases hic : is_complete s
    · exact phase1Years_stop_state env c s y ys hic
    · have hic2 : is_complete s = false := by simpa using hic
      rw [phase1Years_go_state env c s y ys hic2]
      rw [phase1Year_full_state env c s y hq hfull]
      exact phase1Years_full_state env c ys s hq hfull

theorem phase1Conditions_full_state (env : Env) (years : Int × Int) :
    ∀ (cs : List String) (s : SelState), s.quotas = initQuotas →
      CategoriesFull s → (phase1Conditions env years s cs).1 = s
  | [], s, _, _ => rfl
  | c :: cs, s, hq, hfull => by
    by_cases hic : is_complete s
    · exact phase1Conditions_stop_state env years s c cs hic
    · have hic2 : is_complete s = false := by simpa using hic
      rw [phase1Conditions_go_state env years s c cs hic2]
      rw [phase1Years_full_state env c (yearRange years.1 years.2) s hq hfull]
      exact phase1Conditions_full_state env years cs s hq hfull

/-- In a categories-full state Phase 2 does nothing at all: its outcome
guards all fail, so no search is issued, no candidate is fetched, and the
state is returned unchanged.  The Phase 2 quota list is any sublist of
the hardcoded quotas, which is how the source calls it. -/
theorem phase2Outcomes_full (env : Env) (conditions : List String) :
    ∀ (L : List (String × Nat)) (s : SelState), (∀ p ∈ L, p ∈ initQuotas) →
      CategoriesFull s →
      phase2Outcomes env conditions s L = (s, [])
  | [], s, _, _ => rfl
  | oq :: rest, s, hL, hfull => by
    have hge := hfull oq (hL oq (by simp))
    have hnot : ¬ get_outcome_count s oq.1 < oq.2 := by omega
    have h1 := phase2Outcomes_skip_state env conditions s oq rest hnot
    have h2 := phase2Outcomes_skip_trace env conditions s oq rest hnot
    have hrec := phase2Outcomes_full env conditions rest s
      (fun p hp => hL p (List.mem_cons_of_mem _ hp)) hfull
    have : phase2Outcomes env conditions s (oq :: rest) =
        ((phase2Outcomes env conditions s (oq :: rest)).1,
         (phase2Outcomes env conditions s (oq :: rest)).2) := rfl
    rw [this, h1, h2, hrec]

end FullLemmas

section CallLemmas

theorem phase1Candidate_calls (env : Env) (c : String) (s : SelState) (r : SearchResult)
    (hic : is_complete s = false) :
    ∀ e ∈ (phase1Candidate env c s r).2, e.1.isCall = true → is_complete e.2 = false := by
  rcases phase1Candidate_spec env c s r with ⟨_, heq⟩ | ⟨_, _, heq⟩ |
    ⟨o, _, _, _, heq⟩ | ⟨o, d, _, _, _, _, _, _, heq⟩ <;> rw [heq] <;> intro e he hcall
  · simp at he
  · simp at he
    subst he
    exact hic
  · simp at he
    rcases he with he | he <;> subst he
    · exact hic
    · simp [Ev.isCall] at hcall
  · simp at he
    rcases he with he | he <;> subst he
    · exact hic
    · simp [Ev.isCall] at hcall

theorem phase1Results_calls (env : Env) (c : String) :
    ∀ (rs : List SearchResult) (s : SelState),
      ∀ e ∈ (phase1Results env c s rs).2, e.1.isCall = true → is_complete e.2 = false
  | [], s => by simp [phase1Results_nil]
  | r :: rs, s => by
    by_cases hic : is_complete s
    · rw [phase1Results_stop_trace env c s r rs hic]
      simp
    · have hic2 : is_complete s = false := by simpa using hic
      rw [phase1Results_go_trace env c s r rs hic2]
      intro e he hcall
      rcases List.mem_append.mp he with he | he
      · exact phase1Candidate_calls env c s r hic2 e he hcall
      · exact phase1Results_calls env c rs (phase1Candidate env c s r).1 e he hcall

theorem phase1Year_calls (env : Env) (c : String) (s : SelState) (y : Int)
    (hic : is_complete s = false) :
    ∀ e ∈ (phase1Year env c s y).2, e.1.isCall = true → is_complete e.2 = false := by
  cases hs : env.search_bva c y 30 with
  | error err =>
    rw [phase1Year_err_trace env c s y err hs]
    intro e he hcall
    simp at he
    subst he
    exact hic
  | ok results =>
    rw [phase1Year_ok_trace env c s y results hs]
    intro e he hcall
    rcases List.mem_cons.mp he with he | he
    · subst he
      exact hic
    · exact phase1Results_calls env c results s e he hcall

theorem phase1Years_calls (env : Env) (c : String) :
    ∀ (ys : List Int) (s : SelState),
      ∀ e ∈ (phase1Years env c s ys).2, e.1.isCall = true → is_complete e.2 = false
  | [], s => by simp [phase1Years_nil]
  | y :: ys, s => by
    by_cases hic : is_complete s
    · rw [phase1Years_stop_trace env c s y ys hic]
      simp
    · have hic2 : is_complete s = false := by simpa using hic
      rw [phase1Years_go_trace env c s y ys hic2]
      intro e he hcall
      rcases List.mem_append.mp he with he | he
      · exact phase1Year_calls env c s y hic2 e he hcall
      · exact phase1Years_calls env c ys (phase1Year env c s y).1 e he hcall

theorem phase1Conditions_calls (env : Env) (years : Int × Int) :
    ∀ (cs : List String) (s : SelState),
      ∀ e ∈ (phase1Conditions env years s cs).2, e.1.isCall = true → is_complete e.2 = false
  | [], s => by simp [phase1Conditions_nil]
  | c :: cs, s => by
    by_cases hic : is_complete s
    · rw [phase1Conditions_stop_trace env years s c cs hic]
      simp
    · have hic2 : is_complete s = false := by simpa using hic
      rw [phase1Conditions_go_trace env years s c cs hic2]
      intro e he hcall
      rcases List.mem_append.mp he with he | he
      · exact phase1Years_calls env c (yearRange years.1 years.2) s e he hcall
      · exact phase1Conditions_calls env years cs _ e he hcall

theorem phase2Candidate_calls (env : Env) (c outcome : String) (s : SelState)
    (r : SearchResult) (hic : is_complete s = false) :
    ∀ e ∈ (phase2Candidate env c outcome s r).2, e.1.isCall = true →
      is_complete e.2 = false := by
  rcases phase2Candidate_spec env c outcome s r with ⟨_, heq⟩ | ⟨_, _, heq⟩ |
    ⟨a, _, _, _, heq⟩ | ⟨d, _, _, _, _, _, heq⟩ <;> rw [heq] <;> intro e he hcall
  · simp at he
  · simp at he
    subst he
    exact hic
  · simp at he
    rcases he with he | he <;> subst he
    · exact hic
    · simp [Ev.isCall] at hcall
  · simp at he
    rcases he with he | he <;> subst he
    · exact hic
    · simp [Ev.isCall] at hcall

theorem phase2Results_calls (env : Env) (c outcome : String) (quota : Nat) :
    ∀ (rs : List SearchResult) (s : SelState), (outcome, quota) ∈ s.quotas →
      ∀ e ∈ (phase2Results env c outcome quota s rs).2, e.1.isCall = true →
        is_complete e.2 = false
  | [], s, _ => by simp [phase2Results_nil]
  | r :: rs, s, hmemQ => by
    by_cases hq2 : quota ≤ get_outcome_count s outcome
    · rw [phase2Results_stop_trace env c outcome quota s r rs hq2]
      simp
    · have hlt : get_outcome_count s outcome < quota := by omega
      have hic : is_complete s = false := incomplete_of_deficit (outcome, quota) hmemQ hlt
      rw [phase2Results_go_trace env c outcome quota s r rs hq2]
      intro e he hcall
      rcases List.mem_append.mp he with he | he
      · exact phase2Candidate_calls env c outcome s r hic e he hcall
      · have hmemQ2 : (outcome, quota) ∈ (phase2Candidate env c outcome s r).1.quotas := by
          rw [(phase2Candidate_step env c outcome s r).quotas_eq]
          exact hmemQ
        exact phase2Results_calls env c outcome quota rs
          (phase2Candidate env c outcome s r).1 hmemQ2 e he hcall

theorem phase2Conditions_calls (env : Env) (outcome : String) (quota : Nat) :
    ∀ (cs : List String) (s : SelState), (outcome, quota) ∈ s.quotas →
      ∀ e ∈ (phase2Conditions env outcome quota s cs).2, e.1.isCall = true →
        is_complete e.2 = false
  | [], s, _ => by simp [phase2Conditions_nil]
  | c :: cs, s, hmemQ => by
    by_cases hq2 : quota ≤ get_outcome_count s outcome
    · rw [phase2Conditions_stop_trace env outcome quota s c cs hq2]
      simp
    · have hlt : get_outcome_count s outcome < quota := by omega
      have hic : is_complete s = false := incomplete_of_deficit (outcome, quota) hmemQ hlt
      cases hs : env.search_bva (c ++ " " ++ outcome) 2024 20 with
      | error err =>
        rw [phase2Conditions_err_trace env outcome quota s c cs err hq2 hs]
        intro e he hcall
        rcases List.mem_cons.mp he with he | he
        · subst he
          exact hic
        · exact phase2Conditions_calls env outcome quota cs s hmemQ e he hcall
      | ok results =>
        rw [phase2Conditions_ok_trace env outcome quota s c cs results hq2 hs]
        intro e he hcall
        rcases List.mem_cons.mp he with he | he
        · subst he
          exact hic
        · rcases List.mem_append.mp he with he | he
          · exact phase2Results_calls env c outcome quota results s hmemQ e he hcall
          · have hmemQ2 : (outcome, quota) ∈
                (phase2Results env c outcome quota s results).1.quotas := by
              rw [(phase2Results_step env c outcome quota results s).quotas_eq]
              exact hmemQ
            exact phase2Conditions_calls env outcome quota cs
              (phase2Results env c outcome quota s results).1 hmemQ2 e he hcall

theorem phase2Outcomes_calls (env : Env) (conditions : List String) :
    ∀ (L : List (String × Nat)) (s : SelState), (∀ p ∈ L, p ∈ s.quotas) →
      ∀ e ∈ (phase2Outcomes env conditions s L).2, e.1.isCall = true →
        is_complete e.2 = false
  | [], s, _ => by simp [phase2Outcomes_nil]
  | oq :: rest, s, hL => by
    have hoq : (oq.1, oq.2) ∈ s.quotas := hL oq (by simp)
    by_cases hq2 : get_outcome_count s oq.1 < oq.2
    · rw [phase2Outcomes_enter_trace env conditions s oq rest hq2]
      intro e he hcall
      rcases List.mem_append.mp he with he | he
      · exact phase2Conditions_calls env oq.1 oq.2 conditions s hoq e he hcall
      · have hL2 : ∀ p ∈ rest, p ∈ (phase2Conditions env oq.1 oq.2 s conditions).1.quotas := by
          intro p hp
          rw [(phase2Conditions_step env oq.1 oq.2 conditions s).quotas_eq]
          exact hL p (List.mem_cons_of_mem _ hp)
        exact phase2Outcomes_calls env conditions rest
          (phase2Conditions env oq.1 oq.2 s conditions).1 hL2 e he hcall
    · rw [phase2Outcomes_skip_trace env conditions s oq rest hq2]
      exact phase2Outcomes_calls env conditions rest s
        (fun p hp => hL p (List.mem_cons_of_mem _ hp))

/-- Every collaborator call of a full run is issued at a state where
is_complete is false. -/
theorem select_calls (env : Env) (years : Int × Int) :
    ∀ e ∈ (select_100_decisions env years).trace, e.1.isCall = true →
      is_complete e.2 = false := by
  rw [select_trace_eq]
  intro e he hcall
  rcases List.mem_append.mp he with he | he
  · exact phase1Conditions_calls env years initState.conditions initState e he hcall
  · by_cases hic : is_complete (phase1Conditions env years initState initState.conditions).1
    · simp [hic] at he
    · have hic2 : is_complete (phase1Conditions env years initState initState.conditions).1
          = false := by simpa using hic
      rw [if_neg hic] at he
      exact phase2Outcomes_calls env
        (phase1Conditions env years initState initState.conditions).1.conditions
        (phase1Conditions env years initState initState.conditions).1.quotas
        (phase1Conditions env years initState initState.conditions).1
        (fun p hp => hp) e he hcall

end CallLemmas

section SeenGrowth

theorem classifyURL_lower {env : Env} {u o : String}
    (h : classifyURL env u = some o) : pyLower o = o := by
  unfold classifyURL at h
  split at h
  · exact absurd h (by simp)
  · split at h
    · exact absurd h (by simp)
    · have ho := Option.some.inj h
      rw [← ho]
      exact pyLower_idem _

theorem phase1Candidate_seen (env : Env) (c : String) (s : SelState) (r : SearchResult) :
    ∀ u ∈ (phase1Candidate env c s r).1.seen_urls, u ∈ s.seen_urls ∨ u = r.url := by
  rcases phase1Candidate_spec env c s r with ⟨_, heq⟩ | ⟨_, _, heq⟩ |
    ⟨o, _, _, _, heq⟩ | ⟨o, d, _, _, _, _, _, _, heq⟩ <;> rw [heq] <;> intro u hu
  · exact Or.inl hu
  · exact Or.inl hu
  · exact Or.inl hu
  · rw [add_decision_seen] at hu
    rcases List.mem_append.mp hu with hu | hu
    · exact Or.inl hu
    · exact Or.inr (by simpa using hu)

theorem phase1Results_seen (env : Env) (c : String) :
    ∀ (rs : List SearchResult) (s : SelState),
      ∀ u ∈ (phase1Results env c s rs).1.seen_urls,
        u ∈ s.seen_urls ∨ u ∈ rs.map SearchResult.url
  | [], s => fun u hu => Or.inl hu
  | r :: rs, s => by
    by_cases hic : is_complete s
    · rw [phase1Results_stop_state env c s r rs hic]
      exact fun u hu => Or.inl hu
    · have hic2 : is_complete s = false := by simpa using hic
      rw [phase1Results_go_state env c s r rs hic2]
      intro u hu
      rcases phase1Results_seen env c rs (phase1Candidate env c s r).1 u hu with hu | hu
      · rcases phase1Candidate_seen env c s r u hu with hu | hu
        · exact Or.inl hu
        · exact Or.inr (by simp [hu])
      · exact Or.inr (by simp [hu])

theorem phase1Year_seen (env : Env) (c : String) (s : SelState) (y : Int) :
    ∀ u ∈ (phase1Year env c s y).1.seen_urls,
      u ∈ s.seen_urls ∨ u ∈ (pageFor env c y).map SearchResult.url := by
  cases hs : env.search_bva c y 30 with
  | error err =>
    rw [phase1Year_err_state env c s y err hs]
    exact fun u hu => Or.inl hu
  | ok results =>
    rw [phase1Year_ok_state env c s y results hs]
    have hpage : pageFor env c y = results := by simp [pageFor, hs]
    rw [hpage]
    exact phase1Results_seen env c results s

theorem yearsStream_cons (env : Env) (c : String) (y : Int) (ys : List Int) :
    yearsStream env c (y :: ys) = pageFor env c y ++ yearsStream env c ys := by
  simp [yearsStream]

theorem condsStream_cons (env : Env) (years : Int × Int) (c : String) (cs : List String) :
    condsStream env years (c :: cs) =
      yearsStream env c (yearRange years.1 years.2) ++ condsStream env years cs := by
  simp [condsStream]

theorem phase1Years_seen (env : Env) (c : String) :
    ∀ (ys : List Int) (s : SelState),
      ∀ u ∈ (phase1Years env c s ys).1.seen_urls,
        u ∈ s.seen_urls ∨ u ∈ (yearsStream env c ys).map SearchResult.url
  | [], s => fun u hu => Or.inl hu
  | y :: ys, s => by
    by_cases hic : is_complete s
    · rw [phase1Years_stop_state env c s y ys hic]
      exact fun u hu => Or.inl hu
    · have hic2 : is_complete s = false := by simpa using hic
      rw [phase1Years_go_state env c s y ys hic2]
      intro u hu
      rw [yearsStream_cons, List.map_append]
      rcases phase1Years_seen env c ys (phase1Year env c s y).1 u hu with hu | hu
      · rcases phase1Year_seen env c s y u hu with hu | hu
        · exact Or.inl hu
        · exact Or.inr (List.mem_append_left _ hu)
      · exact Or.inr (List.mem_append_right _ hu)

theorem phase1Conditions_seen (env : Env) (years : Int × Int) :
    ∀ (cs : List String) (s : SelState),
      ∀ u ∈ (phase1Conditions env years s cs).1.seen_urls,
        u ∈ s.seen_urls ∨ u ∈ (condsStream env years cs).map SearchResult.url
  | [], s => fun u hu => Or.inl hu
  | c :: cs, s => by
    by_cases hic : is_complete s
    · rw [phase1Conditions_stop_state env years s c cs hic]
      exact fun u hu => Or.inl hu
    · have hic2 : is_complete s = false := by simpa using hic
      rw [phase1Conditions_go_state env years s c cs hic2]
      intro u hu
      rw [condsStream_cons, List.map_append]
      rcases phase1Conditions_seen env years cs _ u hu with hu | hu
      · rcases phase1Years_seen env c (yearRange years.1 years.2) s u hu with hu | hu
        · exact Or.inl hu
        · exact Or.inr (List.mem_append_left _ hu)
      · exact Or.inr (List.mem_append_right _ hu)

end SeenGrowth

section FreshSet

theorem freshSet_mem (env : Env) (o : String) (s : SelState) (rs : List SearchResult)
    (u : String) :
    u ∈ freshSet env o s rs ↔
      u ∈ rs.map SearchResult.url ∧ classifyURL env u = some o ∧ u ∉ s.seen_urls := by
  unfold freshSet
  simp [Finset.mem_sdiff, Finset.mem_filter, List.mem_toFinset]
  tauto

theorem freshSet_nil (env : Env) (o : String) (s : SelState) :
    freshSet env o s [] = ∅ := by
  ext u
  simp [freshSet_mem]

theorem freshSet_single_of_classify_ne (env : Env) (o : String) (s : SelState)
    (r : SearchResult) (h : classifyURL env r.url ≠ some o) :
    freshSet env o s [r] = ∅ := by
  ext u
  simp only [freshSet_mem, Finset.not_mem_empty, iff_false]
  intro hu
  rcases hu with ⟨hmem, hcl, _⟩
  simp at hmem
  rw [hmem] at hcl
  exact h hcl

theorem freshSet_single_of_seen (env : Env) (o : String) (s : SelState)
    (r : SearchResult) (h : r.url ∈ s.seen_urls) :
    freshSet env o s [r] = ∅ := by
  ext u
  simp only [freshSet_mem, Finset.not_mem_empty, iff_false]
  intro hu
  rcases hu with ⟨hmem, _, hns⟩
  simp at hmem
  rw [hmem] at hns
  exact hns h

theorem freshSet_single_card (env : Env) (o : String) (s : SelState) (r : SearchResult) :
    (freshSet env o s [r]).card ≤ 1 := by
  have : freshSet env o s [r] ⊆ {r.url} := by
    intro u hu
    rw [freshSet_mem] at hu
    simp at hu ⊢
    exact hu.1
  calc (freshSet env o s [r]).card ≤ ({r.url} : Finset String).card :=
        Finset.card_le_card this
    _ = 1 := Finset.card_singleton _

theorem freshSet_append_subset (env : Env) (o : String) (s t : SelState)
    (A B : List SearchResult)
    (hseen : ∀ u ∈ t.seen_urls, u ∈ s.seen_urls ∨ u ∈ A.map SearchResult.url) :
    freshSet env o s (A ++ B) ⊆ freshSet env o s A ∪ freshSet env o t B := by
  intro u hu
  rw [freshSet_mem] at hu
  obtain ⟨hmem, hcl, hns⟩ := hu
  rw [List.map_append] at hmem
  rcases List.mem_append.mp hmem with hA | hB
  · exact Finset.mem_union_left _ ((freshSet_mem env o s A u).mpr ⟨hA, hcl, hns⟩)
  · by_cases hts : u ∈ t.seen_urls
    · rcases hseen u hts with h | h
      · exact absurd h hns
      · exact Finset.mem_union_left _ ((freshSet_mem env o s A u).mpr ⟨h, hcl, hns⟩)
    · exact Finset.mem_union_right _ ((freshSet_mem env o t B u).mpr ⟨hB, hcl, hts⟩)

theorem freshSet_append_card (env : Env) (o : String) (s t : SelState)
    (A B : List SearchResult)
    (hseen : ∀ u ∈ t.seen_urls, u ∈ s.seen_urls ∨ u ∈ A.map SearchResult.url) :
    (freshSet env o s (A ++ B)).card ≤
      (freshSet env o s A).card + (freshSet env o t B).card := by
  calc (freshSet env o s (A ++ B)).card
      ≤ (freshSet env o s A ∪ freshSet env o t B).card :=
        Finset.card_le_card (freshSet_append_subset env o s t A B hseen)
    _ ≤ (freshSet env o s A).card + (freshSet env o t B).card :=
        Finset.card_union_le _ _

end FreshSet

section Greedy

theorem greedy_comp {q a b f cA cB cAB : Nat}
    (h1 : min q (a + cA) ≤ b) (h2 : min q (b + cB) ≤ f)
    (hsub : cAB ≤ cA + cB) (hmono : b ≤ f) :
    min q (a + cAB) ≤ f := by
  omega

theorem greedy_candidate (env : Env) (c : String) (s : SelState) (r : SearchResult)
    (p : String × Nat) (hp : p ∈ initQuotas) (hq : s.quotas = initQuotas) :
    min p.2 (get_outcome_count s p.1 + (freshSet env p.1 s [r]).card) ≤
      get_outcome_count (phase1Candidate env c s r).1 p.1 := by
  rcases phase1Candidate_spec env c s r with ⟨hm, heq⟩ | ⟨hm, hc, heq⟩ |
    ⟨o, hm, hc, hn, heq⟩ | ⟨o, d, hm, hc, hn, hdu, hdo, holow, heq⟩
  · have hstate : (phase1Candidate env c s r).1 = s := by rw [heq]
    rw [hstate, freshSet_single_of_seen env p.1 s r hm]
    simp
  · have hstate : (phase1Candidate env c s r).1 = s := by rw [heq]
    rw [hstate, freshSet_single_of_classify_ne env p.1 s r (by rw [hc]; simp)]
    simp
  · have hstate : (phase1Candidate env c s r).1 = s := by rw [heq]
    rw [hstate]
    by_cases ho : o = p.1
    · have hkey : pyLower p.1 = p.1 := initQuotas_keys_lower p hp
      have hnm : ¬ (get_outcome_count s o < lookupD s.quotas (pyLower o) 0) := by
        intro hcon
        have : needs_more s o = true := decide_eq_true hcon
        rw [hn] at this
        exact Bool.false_ne_true this
      rw [ho, hq, hkey] at hnm
      have hlk := lookupD_initQuotas p hp
      rw [hkey] at hlk
      rw [hlk] at hnm
      omega
    · rw [freshSet_single_of_classify_ne env p.1 s r (by rw [hc]; simp; exact ho)]
      simp
  · have hstate : (phase1Candidate env c s r).1 =
        add_decision { s with seen_urls := s.seen_urls ++ [r.url] } d := by rw [heq]
    rw [hstate]
    have hcount : get_outcome_count
        (add_decision { s with seen_urls := s.seen_urls ++ [r.url] } d) p.1 =
        get_outcome_count s p.1 +
          (if pyLower d.outcome == pyLower p.1 then 1 else 0) := by
      rw [get_outcome_count_add, count_set_seen]
    by_cases ho : o = p.1
    · have hind : (pyLower d.outcome == pyLower p.1) = true := by
        rw [hdo, ho]
        exact beq_self_eq_true _
      rw [hcount, hind]
      have hcard := freshSet_single_card env p.1 s r
      simp only [if_true]
      omega
    · have hind : (pyLower d.outcome == pyLower p.1) = false := by
        rw [hdo, holow, initQuotas_keys_lower p hp]
        exact beq_eq_false_iff_ne.mpr ho
      rw [hcount, hind]
      rw [freshSet_single_of_classify_ne env p.1 s r (by rw [hc]; simp; exact ho)]
      simp

theorem greedy_results (env : Env) (c : String) (p : String × Nat) (hp : p ∈ initQuotas) :
    ∀ (rs : List SearchResult) (s : SelState), s.quotas = initQuotas →
      min p.2 (get_outcome_count s p.1 + (freshSet env p.1 s rs).card) ≤
        get_outcome_count (phase1Results env c s rs).1 p.1
  | [], s, hq => by
    rw [phase1Results_nil, freshSet_nil]
    simp
  | r :: rs, s, hq => by
    by_cases hic : is_complete s
    · rw [phase1Results_stop_state env c s r rs hic]
      have := is_complete_counts p (by rw [hq]; exact hp) hic
      omega
    · have hic2 : is_complete s = false := by simpa using hic
      rw [phase1Results_go_state env c s r rs hic2]
      have hq1 : (phase1Candidate env c s r).1.quotas = initQuotas := by
        rw [(phase1Candidate_step env c s r).quotas_eq, hq]
      have h1 := greedy_candidate env c s r p hp hq
      have h2 := greedy_results env c p hp rs (phase1Candidate env c s r).1 hq1
      have hmono := (phase1Results_step env c rs (phase1Candidate env c s r).1).count_le p.1
      have hseen : ∀ u ∈ (phase1Candidate env c s r).1.seen_urls,
          u ∈ s.seen_urls ∨ u ∈ ([r] : List SearchResult).map SearchResult.url := by
        intro u hu
        rcases phase1Candidate_seen env c s r u hu with h | h
        · exact Or.inl h
        · exact Or.inr (by simp [h])
      have hsub := freshSet_append_card env p.1 s (phase1Candidate env c s r).1 [r] rs hseen
      exact greedy_comp h1 h2 hsub hmono

theorem greedy_year (env : Env) (c : String) (p : String × Nat) (hp : p ∈ initQuotas)
    (s : SelState) (y : Int) (hq : s.quotas = initQuotas) :
    min p.2 (get_outcome_count s p.1 + (freshSet env p.1 s (pageFor env c y)).card) ≤
      get_outcome_count (phase1Year env c s y).1 p.1 := by
  cases hs : env.search_bva c y 30 with
  | error err =>
    rw [phase1Year_err_state env c s y err hs]
    have hpage : pageFor env c y = [] := by simp [pageFor, hs]
    rw [hpage, freshSet_nil]
    simp
  | ok results =>
    rw [phase1Year_ok_state env c s y results hs]
    have hpage : pageFor env c y = results := by simp [pageFor, hs]
    rw [hpage]
    exact greedy_results env c p hp results s hq

theorem greedy_years (env : Env) (c : String) (p : String × Nat) (hp : p ∈ initQuotas) :
    ∀ (ys : List Int) (s : SelState), s.quotas = initQuotas →
      min p.2 (get_outcome_count s p.1 +
        (freshSet env p.1 s (yearsStream env c ys)).card) ≤
        get_outcome_count (phase1Years env c s ys).1 p.1
  | [], s, hq => by
    rw [phase1Years_nil]
    have hys : yearsStream env c [] = [] := by simp [yearsStream]
    rw [hys, freshSet_nil]
    simp
  | y :: ys, s, hq => by
    by_cases hic : is_complete s
    · rw [phase1Years_stop_state env c s y ys hic]
      have := is_complete_counts p (by rw [hq]; exact hp) hic
      omega
    · have hic2 : is_complete s = false := by simpa using hic
      rw [phase1Years_go_state env c s y ys hic2]
      have hq1 : (phase1Year env c s y).1.quotas = initQuotas := by
        rw [(phase1Year_step env c s y).quotas_eq, hq]
      have h1 := greedy_year env c p hp s y hq
      have h2 := greedy_years env c p hp ys (phase1Year env c s y).1 hq1
      have hmono := (phase1Years_step env c ys (phase1Year env c s y).1).count_le p.1
      have hsub := freshSet_append_card env p.1 s (phase1Year env c s y).1
        (pageFor env c y) (yearsStream env c ys) (phase1Year_seen env c s y)
      rw [yearsStream_cons]
      exact greedy_comp h1 h2 hsub hmono

theorem greedy_conditions (env : Env) (years : Int × Int) (p : String × Nat)
    (hp : p ∈ initQuotas) :
    ∀ (cs : List String) (s : SelState), s.quotas = initQuotas →
      min p.2 (get_outcome_count s p.1 +
        (freshSet env p.1 s (condsStream env years cs)).card) ≤
        get_outcome_count (phase1Conditions env years s cs).1 p.1
  | [], s, hq => by
    rw [phase1Conditions_nil]
    have hcs : condsStream env years [] = [] := by simp [condsStream]
    rw [hcs, freshSet_nil]
    simp
  | c :: cs, s, hq => by
    by_cases hic : is_complete s
    · rw [phase1Conditions_stop_state env years s c cs hic]
      have := is_complete_counts p (by rw [hq]; exact hp) hic
      omega
    · have hic2 : is_complete s = false := by simpa using hic
      rw [phase1Conditions_go_state env years s c cs hic2]
      have hq1 : (phase1Years env c s (yearRange years.1 years.2)).1.quotas = initQuotas := by
        rw [(phase1Years_step env c (yearRange years.1 years.2) s).quotas_eq, hq]
      have h1 := greedy_years env c p hp (yearRange years.1 years.2) s hq
      have h2 := greedy_conditions env years p hp cs
        (phase1Years env c s (yearRange years.1 years.2)).1 hq1
      have hmono := (phase1Conditions_step env years cs
        (phase1Years env c s (yearRange years.1 years.2)).1).count_le p.1
      have hsub := freshSet_append_card env p.1 s
        (phase1Years env c s (yearRange years.1 years.2)).1
        (yearsStream env c (yearRange years.1 years.2)) (condsStream env years cs)
        (phase1Years_seen env c (yearRange years.1 years.2) s)
      rw [condsStream_cons]
      exact greedy_comp h1 h2 hsub hmono

/-- If the Phase 1 stream offers at least the target number of distinct,
successfully classified, fresh locators of a quota category, the final
state of the run has reached that target. -/
theorem select_count_ge (env : Env) (years : Int × Int) (p : String × Nat)
    (hp : p ∈ initQuotas)
    (henough : p.2 ≤ (freshSet env p.1 initState (phase1Stream env years)).card) :
    p.2 ≤ get_outcome_count (select_100_decisions env years).state p.1 := by
  have h1 := greedy_conditions env years p hp initState.conditions initState rfl
  have h0 : get_outcome_count initState p.1 = 0 := rfl
  have hps : phase1Stream env years = condsStream env years initState.conditions := rfl
  rw [hps] at henough
  have hp1 : p.2 ≤ get_outcome_count
      (phase1Conditions env years initState initState.conditions).1 p.1 := by
    omega
  rw [select_state_eq]
  by_cases hic : is_complete (phase1Conditions env years initState initState.conditions).1
  · rw [if_pos hic]
    exact hp1
  · rw [if_neg hic]
    have hmono := (phase2Outcomes_step env
      (phase1Conditions env years initState initState.conditions).1.conditions
      (phase1Conditions env years initState initState.conditions).1.quotas
      (phase1Conditions env years initState initState.conditions).1).count_le p.1
    omega

end Greedy

section Claims

/-- C1: No-overshoot. In every run, at every state recorded in the trace
(in particular after every accept/reject decision) and in the final
state, every category count is at most its quota target; and whenever
is_complete holds of the final state, every category count equals its
target exactly. -/
theorem c1_no_overshoot (env : Env) (years : Int × Int) :
    (∀ e ∈ (select_100_decisions env years).trace, NoOvershoot e.2) ∧
    NoOvershoot (select_100_decisions env years).state ∧
    (is_complete (select_100_decisions env years).state = true →
      ∀ p ∈ initQuotas,
        get_outcome_count (select_100_decisions env years).state p.1 = p.2) := by
  obtain ⟨hfin, htr⟩ := select_inv env years
  refine ⟨fun e he => (htr e he).2.2.2.2.2, hfin.2.2.2.2.2, ?_⟩
  intro hcomp p hp
  have hle := hfin.2.2.2.2.2 p hp
  have hge := is_complete_counts p (by rw [hfin.1]; exact hp) hcomp
  omega

/-- C1 witness at a concrete environment. -/
theorem c1_no_overshoot_witness :
    NoOvershoot (select_100_decisions offlineEnv (2023, 2025)).state :=
  (c1_no_overshoot offlineEnv (2023, 2025)).2.1

set_option maxRecDepth 400000 in
/-- C2 counterexample: the deadlock environment offers, in its Phase 1
stream, at least 25 fresh classifiable candidates of every category and
at least 10 candidates carrying each special feature (all of them
classified granted, so a subset of the stream satisfies every quota
simultaneously), yet the run ends with is_complete false, both feature
counts at zero, and every category met exactly: the feature-bearing
candidates arrived after their category was saturated and were all
rejected. -/
theorem c2_counterexample :
    (25 ≤ (freshSet cexEnv "granted" initState (phase1Stream cexEnv (2023, 2025))).card ∧
     25 ≤ (freshSet cexEnv "denied" initState (phase1Stream cexEnv (2023, 2025))).card ∧
     25 ≤ (freshSet cexEnv "remanded" initState (phase1Stream cexEnv (2023, 2025))).card ∧
     25 ≤ (freshSet cexEnv "mixed" initState (phase1Stream cexEnv (2023, 2025))).card ∧
     10 ≤ (((phase1Stream cexEnv (2023, 2025)).map SearchResult.url).toFinset.filter
        (fun u => pnURL cexEnv u = true)).card ∧
     10 ≤ (((phase1Stream cexEnv (2023, 2025)).map SearchResult.url).toFinset.filter
        (fun u => eiURL cexEnv u = true)).card) ∧
    is_complete cexRun.state = false ∧
    lookupD cexRun.state.special_counts "private_nexus" 0 = 0 ∧
    lookupD cexRun.state.special_counts "exam_inadequacy" 0 = 0 ∧
    (∀ p ∈ initQuotas, get_outcome_count cexRun.state p.1 = p.2) := by
  decide

/-- C2 as amended: the returned sequence has at most 100 items; whenever
the Phase 1 stream offers at least the target number of fresh qualifying
candidates of a category, that category target is met exactly at the end
of the run; and feature minimums are met-or-exceeded whenever the run is
complete (stream sufficiency alone does not guarantee them). -/
theorem c2_amended (env : Env) (years : Int × Int) :
    (select_100_decisions env years).returned.length ≤ 100 ∧
    (∀ p ∈ initQuotas,
      p.2 ≤ (freshSet env p.1 initState (phase1Stream env years)).card →
      get_outcome_count (select_100_decisions env years).state p.1 = p.2) ∧
    (is_complete (select_100_decisions env years).state = true →
      ∀ p ∈ initSpecialQuotas,
        p.2 ≤ lookupD (select_100_decisions env years).state.special_counts p.1 0) := by
  refine ⟨?_, ?_, ?_⟩
  · rw [select_returned_eq, List.length_take]
    omega
  · intro p hp henough
    have hge := select_count_ge env years p hp henough
    have hle := (select_inv env years).1.2.2.2.2.2 p hp
    omega
  · intro hcomp p hp
    exact is_complete_specials p (by rw [(select_inv env years).1.2.1]; exact hp) hcomp

set_option maxRecDepth 400000 in
/-- C2 witness: on the deadlock environment the granted stream is rich
enough, so the amended theorem yields the exact granted count. -/
theorem c2_amended_witness :
    get_outcome_count (select_100_decisions cexEnv (2023, 2025)).state "granted" = 25 :=
  (c2_amended cexEnv (2023, 2025)).2.1 ("granted", 25) (by decide) (by decide)

/-- C3 counterexample: with every collaborator failing, the run is
incomplete, yet the value handed to the caller is exactly the bare
accumulated item list (here empty); the returned result is a plain list
of decisions and carries no completion flag or tally fields that could be
inspected. -/
theorem c3_counterexample :
    select_100_balanced offlineEnv = ([] : List Decision) ∧
    select_100_balanced offlineEnv =
      (select_100_decisions offlineEnv (2023, 2025)).state.selected ∧
    is_complete (select_100_decisions offlineEnv (2023, 2025)).state = false := by
  decide

/-- C3 as amended: the entry point is a total function that never raises
for stream exhaustion and always returns the accumulated partial result,
but the returned value is only selected truncated to 100 items; the
completion flag and the tallies live in the selector state and are not
part of the returned result. -/
theorem c3_amended (env : Env) (years : Int × Int) :
    (select_100_decisions env years).returned =
      (select_100_decisions env years).state.selected.take 100 ∧
    select_100_balanced env = (select_100_decisions env (2023, 2025)).returned :=
  ⟨select_returned_eq env years, rfl⟩

/-- C4 counterexample: a candidate with an unmatched outcome is fetched
and classified, rejected, and its locator is never recorded in
seen_urls; when the same locator reappears in the page it is fetched and
classified a second time. -/
theorem c4_counterexample :
    (dupRun.trace.filter (fun e => decide (e.1 = Ev.fetchCall "dup"))).length = 2 ∧
    dupRun.state.seen_urls = [] ∧
    dupRun.state.selected = [] := by
  decide

/-- C4 as amended: seen_urls records exactly the locators of accepted
items, in order, so no two accepted items share a locator and a locator
in seen_urls is skipped without any fetch, classification or state
change; rejected candidates are not recorded and may be re-evaluated
later. -/
theorem c4_amended (env : Env) (years : Int × Int) :
    ((select_100_decisions env years).state.selected.map Decision.url).Nodup ∧
    (select_100_decisions env years).state.seen_urls =
      (select_100_decisions env years).state.selected.map Decision.url ∧
    (∀ (c : String) (s : SelState) (r : SearchResult), r.url ∈ s.seen_urls →
      phase1Candidate env c s r = (s, [])) ∧
    (∀ (c o : String) (s : SelState) (r : SearchResult), r.url ∈ s.seen_urls →
      phase2Candidate env c o s r = (s, [])) := by
  have hinv := (select_inv env years).1
  refine ⟨hinv.2.2.2.1, hinv.2.2.1, ?_, ?_⟩
  · intro c s r hmem
    rcases phase1Candidate_spec env c s r with ⟨_, heq⟩ | ⟨hm, _, _⟩ |
      ⟨o, hm, _, _, _⟩ | ⟨o, d, hm, _, _, _, _, _, _⟩
    · exact heq
    · exact absurd hmem hm
    · exact absurd hmem hm
    · exact absurd hmem hm
  · intro c o s r hmem
    rcases phase2Candidate_spec env c o s r with ⟨_, heq⟩ | ⟨hm, _, _⟩ |
      ⟨a, hm, _, _, _⟩ | ⟨d, hm, _, _, _, _, _⟩
    · exact heq
    · exact absurd hmem hm
    · exact absurd hmem hm
    · exact absurd hmem hm

/-- C4 witness: a seen locator is skipped with no event. -/
theorem c4_amended_witness :
    phase1Candidate offlineEnv "tinnitus"
      { initState with seen_urls := ["dup"] } dupR =
      ({ initState with seen_urls := ["dup"] }, []) :=
  (c4_amended offlineEnv (2023, 2025)).2.2.1 "tinnitus"
    { initState with seen_urls := ["dup"] } dupR (by decide)

/-- C5: Early termination. Every search call and every fetch call of a
run is issued at a state in which is_complete is false: once all quotas
are simultaneously met no further collaborator call occurs, and the
remainder of the current page is not drained. -/
theorem c5_early_termination (env : Env) (years : Int × Int) :
    ∀ e ∈ (select_100_decisions env years).trace, e.1.isCall = true →
      is_complete e.2 = false :=
  select_calls env years

/-- C5 witness: the first search call of a concrete run happens at the
initial, incomplete state. -/
theorem c5_early_termination_witness :
    is_complete ((Ev.searchCall "tinnitus" 2025 30, initState) : Ev × SelState).2 = false :=
  c5_early_termination offlineEnv (2023, 2025) (Ev.searchCall "tinnitus" 2025 30, initState)
    (by decide) (by decide)

/-- C6: Phase 2 verification. A backfill candidate whose classification
differs from the targeted outcome leaves the selector state unchanged,
and whenever a backfill candidate is accepted, the accepted decision
carries exactly the targeted outcome and its locator classifies to that
outcome. -/
theorem c6_phase2_verification (env : Env) (c outcome : String) (s : SelState)
    (r : SearchResult) :
    (∀ a, classifyURL env r.url = some a → a ≠ outcome →
      (phase2Candidate env c outcome s r).1 = s) ∧
    ((phase2Candidate env c outcome s r).1.selected ≠ s.selected →
      ∃ d, (phase2Candidate env c outcome s r).1.selected = s.selected ++ [d] ∧
        d.outcome = outcome ∧ d.url = r.url ∧
        classifyURL env r.url = some outcome) := by
  constructor
  · intro a ha hne
    rcases phase2Candidate_spec env c outcome s r with ⟨hm, heq⟩ | ⟨hm, hc, heq⟩ |
      ⟨b, hm, hc, hb, heq⟩ | ⟨d, hm, hc, hdu, hdo, holow, heq⟩
    · rw [heq]
    · rw [heq]
    · rw [heq]
    · rw [hc] at ha
      exact absurd (Option.some.inj ha) (fun h => hne h.symm)
  · intro hne
    rcases phase2Candidate_spec env c outcome s r with ⟨hm, heq⟩ | ⟨hm, hc, heq⟩ |
      ⟨b, hm, hc, hb, heq⟩ | ⟨d, hm, hc, hdu, hdo, holow, heq⟩
    · rw [heq] at hne
      exact absurd rfl hne
    · rw [heq] at hne
      exact absurd rfl hne
    · rw [heq] at hne
      exact absurd rfl hne
    · refine ⟨d, ?_, hdo, hdu, hc⟩
      rw [heq]
      exact add_decision_selected _ d

/-- C6 witness: a mismatching candidate is rejected with no state
change. -/
theorem c6_phase2_verification_witness :
    (phase2Candidate dupEnv "tinnitus" "granted" initState dupR).1 = initState :=
  (c6_phase2_verification dupEnv "tinnitus" "granted" initState dupR).1 ""
    (by decide) (by decide)

/-- C7: Fetch-failure semantics. A failing fetch produces only a log-and-
skip: the state is returned unchanged with just the fetch call recorded;
any candidate whose fetch or classification fails leaves the state
exactly unchanged in both phases, and the results loop proceeds to the
remaining candidates from the same state; a failed search for one
(condition, year) unit leaves the state unchanged with just the search
call recorded, and the year loop proceeds with the remaining years. -/
theorem c7_failure_semantics (env : Env) (c o : String) (s : SelState) (r : SearchResult)
    (rs : List SearchResult) (y : Int) (ys : List Int) :
    (env.fetch_decision_text r.url = .error () → r.url ∉ s.seen_urls →
      phase1Candidate env c s r = (s, [(.fetchCall r.url, s)]) ∧
      phase2Candidate env c o s r = (s, [(.fetchCall r.url, s)])) ∧
    (classifyURL env r.url = none →
      (phase1Candidate env c s r).1 = s ∧ (phase2Candidate env c o s r).1 = s) ∧
    (classifyURL env r.url = none → is_complete s = false →
      (phase1Results env c s (r :: rs)).1 = (phase1Results env c s rs).1) ∧
    (env.search_bva c y 30 = .error () →
      phase1Year env c s y = (s, [(.searchCall c y 30, s)])) ∧
    (env.search_bva c y 30 = .error () → is_complete s = false →
      (phase1Years env c s (y :: ys)).1 = (phase1Years env c s ys).1) := by
  have hnone_state : classifyURL env r.url = none →
      (phase1Candidate env c s r).1 = s ∧ (phase2Candidate env c o s r).1 = s := by
    intro hcl
    constructor
    · rcases phase1Candidate_spec env c s r with ⟨_, heq⟩ | ⟨_, _, heq⟩ |
        ⟨a, _, hc, _, heq⟩ | ⟨a, d, _, hc, _, _, _, _, heq⟩
      · rw [heq]
      · rw [heq]
      · rw [hcl] at hc
        exact absurd hc (by simp)
      · rw [hcl] at hc
        exact absurd hc (by simp)
    · rcases phase2Candidate_spec env c o s r with ⟨_, heq⟩ | ⟨_, _, heq⟩ |
        ⟨a, _, hc, _, heq⟩ | ⟨d, _, hc, _, _, _, heq⟩
      · rw [heq]
      · rw [heq]
      · rw [hcl] at hc
        exact absurd hc (by simp)
      · rw [hcl] at hc
        exact absurd hc (by simp)
  refine ⟨?_, hnone_state, ?_, ?_, ?_⟩
  · intro hfe hmem
    constructor
    · simp [phase1Candidate, hmem, hfe]
    · simp [phase2Candidate, hmem, hfe]
  · intro hcl hic
    rw [phase1Results_go_state env c s r rs hic, (hnone_state hcl).1]
  · intro hse
    rw [phase1Year, hse]
  · intro hse hic
    rw [phase1Years_go_state env c s y ys hic,
      phase1Year_err_state env c s y () hse]

/-- C7 witness: in the fully failing environment a candidate fetch
failure leaves the initial state unchanged. -/
theorem c7_failure_semantics_witness :
    phase1Candidate offlineEnv "tinnitus" initState dupR =
      (initState, [(Ev.fetchCall "dup", initState)]) :=
  ((c7_failure_semantics offlineEnv "tinnitus" "granted" initState dupR [] 2025 []).1
    rfl (by decide)).1

/-- C8 counterexample: the constructor accepts no configuration at all
and performs no validation: it is the constant hardcoded state, so no
unsatisfiable configuration can ever be rejected with a configuration
error and no such error exists in the module. -/
theorem c8_counterexample :
    initState =
      { quotas := [("granted", 25), ("denied", 25), ("remanded", 25), ("mixed", 25)]
        conditions := ["tinnitus", "sleep apnea secondary", "PTSD", "radiculopathy", "knee"]
        special_quotas := [("private_nexus", 10), ("exam_inadequacy", 10)]
        selected := []
        seen_urls := []
        counts := []
        special_counts := [] } := rfl

/-- C8 as amended: the hardcoded configuration is satisfiable by
construction: the category targets sum exactly to the 100 total, the
seed condition list is non-empty, and the selector state starts from
these fixed dicts, so no fatal configuration condition can arise and no
validation is needed or present. -/
theorem c8_amended :
    (initQuotas.map Prod.snd).sum = 100 ∧
    initState.conditions ≠ [] ∧
    initState.conditions.length = 5 ∧
    initState.quotas = initQuotas ∧
    initState.special_quotas = initSpecialQuotas := by
  decide

/-- C9: Determinism. Two runs against collaborators that answer every
search, fetch, parse and feature query identically produce identical
accepted sequences in identical order (and identical returned lists). -/
theorem c9_determinism (env1 env2 : Env) (years : Int × Int)
    (hs : ∀ q y m, env1.search_bva q y m = env2.search_bva q y m)
    (hf : ∀ u, env1.fetch_decision_text u = env2.fetch_decision_text u)
    (hp : ∀ t, env1.parse_decision t = env2.parse_decision t)
    (hpn : ∀ t, env1.has_private_nexus t = env2.has_private_nexus t)
    (hei : ∀ t, env1.has_exam_inadequacy t = env2.has_exam_inadequacy t) :
    (select_100_decisions env1 years).state.selected =
      (select_100_decisions env2 years).state.selected ∧
    (select_100_decisions env1 years).returned =
      (select_100_decisions env2 years).returned := by
  have henv : env1 = env2 := by
    cases env1
    cases env2
    simp only [Env.mk.injEq]
    exact ⟨funext fun q => funext fun y => funext fun m => hs q y m,
      funext hf, funext hp, funext hpn, funext hei⟩
  rw [henv]
  exact ⟨rfl, rfl⟩

/-- C9 witness at a concrete pair of identical environments. -/
theorem c9_determinism_witness :
    (select_100_decisions offlineEnv (2023, 2025)).state.selected =
      (select_100_decisions offlineEnv (2023, 2025)).state.selected :=
  (c9_determinism offlineEnv offlineEnv (2023, 2025) (fun _ _ _ => rfl) (fun _ => rfl)
    (fun _ => rfl) (fun _ => rfl) (fun _ => rfl)).1

/-- C10: Feature deadlock. From any state whose category counts have all
reached their hardcoded targets while some special count is below its
minimum, no later candidate of either phase can ever be accepted: every
Phase 1 loop returns the state unchanged, Phase 2 issues nothing and
returns the state unchanged with an empty trace, and the state is not
complete, so the run ends incomplete. -/
theorem c10_feature_deadlock (env : Env) (s : SelState)
    (hq : s.quotas = initQuotas) (hsq : s.special_quotas = initSpecialQuotas)
    (hfull : CategoriesFull s)
    (hdef : lookupD s.special_counts "private_nexus" 0 < 10 ∨
            lookupD s.special_counts "exam_inadequacy" 0 < 10) :
    (∀ c r, (phase1Candidate env c s r).1 = s) ∧
    (∀ c rs, (phase1Results env c s rs).1 = s) ∧
    (∀ c ys, (phase1Years env c s ys).1 = s) ∧
    (∀ years cs, (phase1Conditions env years s cs).1 = s) ∧
    (∀ conditions, phase2Outcomes env conditions s s.quotas = (s, [])) ∧
    is_complete s = false := by
  refine ⟨fun c r => phase1Candidate_full env c s r hq hfull,
    fun c rs => phase1Results_full_state env c rs s hq hfull,
    fun c ys => phase1Years_full_state env c ys s hq hfull,
    fun years cs => phase1Conditions_full_state env years cs s hq hfull,
    fun conditions => phase2Outcomes_full env conditions s.quotas s
      (by rw [hq]; exact fun p hp => hp) hfull, ?_⟩
  rcases hdef with hdef | hdef
  · exact incomplete_of_special_deficit ("private_nexus", 10)
      (by rw [hsq]; simp [initSpecialQuotas]) hdef
  · exact incomplete_of_special_deficit ("exam_inadequacy", 10)
      (by rw [hsq]; simp [initSpecialQuotas]) hdef

set_option maxRecDepth 40000 in
/-- C10 witness: a concrete categories-full state with zero feature
counts is not complete and is hence stuck. -/
theorem c10_feature_deadlock_witness : is_complete fullState = false :=
  (c10_feature_deadlock offlineEnv fullState rfl rfl
    (by unfold CategoriesFull; decide) (by decide)).2.2.2.2.2

end Claims

end VASel
